import Mathlib

/-!
# Verification of the metisara placeholder-resolution and submission pipeline

This file gives a shallow embedding, in Lean 4, of the core logic of the
metisara repository:

* `src/metisara/jira/ticket_creator.py` — the `JiraBulkCreator` class:
  date normalization (`convert_date`), epic-placeholder resolution
  (`resolve_epic_placeholder`), payload construction
  (`create_issue_from_row`), issue creation with dry-run simulation
  (`create_issue`) and the three-phase submission driver (`process_csv`).
* `src/metisara/processors/csv_processor.py` — configuration extraction
  (`extract_config_from_csv`), generated ticket rows
  (`generate_ra_tickets`, `generate_conception_review_tickets`) and the
  placeholder substitution engine (`replace_placeholders_in_csv`).

Python strings are modelled as Lean `String`; Python `dict`s (which preserve
insertion order) are modelled as association lists with in-place update
semantics; the external Jira tracker is modelled as an oracle giving, for the
n-th creation call, either an issue key or a failure.  File I/O and printing
are outside the embedding: the functions below start from the list of parsed
CSV rows.
-/

namespace Metisara

/-! ## Python string primitives

Faithful models of the Python `str` operations the source uses:
`str.strip`, `str.lower`, `str.startswith`, `str.endswith`, the substring
test `in`, and `str.replace`. -/

/-- Python `str.strip()`: drop leading and trailing whitespace. -/
def pyStrip (s : String) : String :=
  ⟨((s.data.dropWhile Char.isWhitespace).reverse.dropWhile Char.isWhitespace).reverse⟩

/-- Python `str.lower()` (ASCII-adequate model). -/
def pyLower (s : String) : String :=
  ⟨s.data.map Char.toLower⟩

/-- Python `str.startswith(pre)`. -/
def pyStartsWith (s pre : String) : Bool :=
  pre.data.isPrefixOf s.data

/-- Python `str.endswith(suf)`. -/
def pyEndsWith (s suf : String) : Bool :=
  suf.data.isSuffixOf s.data

/-- Python substring test `p in s`, on character lists.
`containsSub s p = true` iff `p` occurs contiguously in `s`
(the empty pattern occurs in every string, as in Python). -/
def containsSub : List Char → List Char → Bool
  | [], p => p.isEmpty
  | c :: rest, p => p.isPrefixOf (c :: rest) || containsSub rest p

/-- Python substring test `p in s` on strings. -/
def containsStr (s p : String) : Bool :=
  containsSub s.data p.data

/-- One fuel-indexed pass of Python `str.replace`: replace every
(non-overlapping, leftmost-first) occurrence of `old` by `new`.
`fuel` bounds the number of characters consumed; callers pass the length
of `s`, which suffices whenever `old` is nonempty. -/
def pyReplaceAux (new old : List Char) : Nat → List Char → List Char
  | 0, s => s
  | _ + 1, [] => []
  | fuel + 1, c :: rest =>
    if old ≠ [] ∧ old.isPrefixOf (c :: rest) then
      new ++ pyReplaceAux new old fuel (rest.drop (old.length - 1))
    else
      c :: pyReplaceAux new old fuel rest

/-- Python `s.replace(old, new)`.  When `old` is empty Python inserts `new`
around every character; the source only ever replaces nonempty `<...>`
tokens, and the empty-pattern case is modelled by the main recursion's
fuel exhaustion being unreachable for nonempty patterns. -/
def pyReplace (s old new : String) : String :=
  if old.data = [] then
    ⟨new.data ++ (s.data.map (fun c => [c] ++ new.data)).flatten⟩
  else
    ⟨pyReplaceAux new.data old.data s.data.length s.data⟩

/-- Digits-to-number helper for Python `int(...)` / `float(...)` on a
digit-only string. -/
def digitsToNat (l : List Char) : Nat :=
  l.foldl (fun acc c => acc * 10 + (c.toNat - 48)) 0

/-- Python `str.isdigit()` (ASCII-adequate model). -/
def pyIsDigit (s : String) : Bool :=
  !s.data.isEmpty && s.data.all Char.isDigit

/-! ## Association lists with Python `dict` semantics

Python dicts preserve insertion order; assigning to an existing key updates
it in place, assigning to a fresh key appends it. -/

/-- `d[k] = v` on an insertion-ordered association list. -/
def insertAssoc (k : String) (v : α) : List (String × α) → List (String × α)
  | [] => [(k, v)]
  | (k', v') :: rest =>
    if k' = k then (k, v) :: rest else (k', v') :: insertAssoc k v rest

/-- `d.get(k)` on an association list. -/
def lookupAssoc (k : String) : List (String × α) → Option α
  | [] => none
  | (k', v') :: rest => if k' = k then some v' else lookupAssoc k rest

/-! ## Date Normalizer (`JiraBulkCreator.convert_date`)

The source tries, in declared order, the `strptime` patterns
`%d/%b/%y`, `%d/%m/%y`, `%d-%m-%y`, `%d.%m.%y`, `%d/%b/%Y`, `%d/%m/%Y`
and renders the first successful parse as `YYYY-MM-DD`.  CPython's
`_strptime` matches `%d` as one or two digits in 1..31, `%m` as one or two
digits in 1..12, `%y` as exactly two digits (mapped to 2000..2068 /
1969..1999), `%Y` as exactly four digits, and `%b` as a case-insensitive
English month abbreviation; the resulting triple must be a valid calendar
date.  The whole input (already stripped by the caller) must be consumed. -/

/-- Split a character list on a separator character (Python-style split). -/
def splitOnChar (sep : Char) : List Char → List (List Char)
  | [] => [[]]
  | c :: rest =>
    if c = sep then [] :: splitOnChar sep rest
    else
      match splitOnChar sep rest with
      | [] => [[c]]
      | h :: t => (c :: h) :: t

/-- `strptime`'s `%b`: case-insensitive English month abbreviation. -/
def monthAbbrevNum (s : String) : Option Nat :=
  match pyLower s with
  | "jan" => some 1 | "feb" => some 2 | "mar" => some 3 | "apr" => some 4
  | "may" => some 5 | "jun" => some 6 | "jul" => some 7 | "aug" => some 8
  | "sep" => some 9 | "oct" => some 10 | "nov" => some 11 | "dec" => some 12
  | _ => none

/-- `strptime`'s `%d`: one or two digits, value 1..31. -/
def parseDay (l : List Char) : Option Nat :=
  if (l.length = 1 ∨ l.length = 2) ∧ l.all Char.isDigit then
    let n := digitsToNat l
    if 1 ≤ n ∧ n ≤ 31 then some n else none
  else none

/-- `strptime`'s `%m`: one or two digits, value 1..12. -/
def parseMonthNum (l : List Char) : Option Nat :=
  if (l.length = 1 ∨ l.length = 2) ∧ l.all Char.isDigit then
    let n := digitsToNat l
    if 1 ≤ n ∧ n ≤ 12 then some n else none
  else none

/-- `strptime`'s `%y`: exactly two digits; 0..68 maps to 2000..2068,
69..99 to 1969..1999. -/
def parseYear2 (l : List Char) : Option Nat :=
  if l.length = 2 ∧ l.all Char.isDigit then
    let n := digitsToNat l
    some (if n ≤ 68 then 2000 + n else 1900 + n)
  else none

/-- `strptime`'s `%Y`: exactly four digits; `datetime` requires year ≥ 1. -/
def parseYear4 (l : List Char) : Option Nat :=
  if l.length = 4 ∧ l.all Char.isDigit then
    let n := digitsToNat l
    if 1 ≤ n then some n else none
  else none

/-- Gregorian leap year, as in Python's `datetime`. -/
def isLeapYear (y : Nat) : Bool :=
  (y % 4 = 0 && y % 100 ≠ 0) || y % 400 = 0

/-- Days in a month, as validated by the `datetime` constructor. -/
def daysInMonth (y m : Nat) : Nat :=
  if m = 2 then (if isLeapYear y then 29 else 28)
  else if m = 4 ∨ m = 6 ∨ m = 9 ∨ m = 11 then 30
  else 31

/-- One of the six accepted input patterns: a separator character, whether
the month field is `%b` (abbreviated name) or `%m` (number), and whether the
year field is `%Y` (four digits) or `%y` (two digits). -/
structure DateFmt where
  sep : Char
  monthAbbrev : Bool
  year4 : Bool
deriving DecidableEq

/-- The fixed, ordered `date_formats` list of `convert_date`. -/
def date_formats : List DateFmt :=
  [⟨'/', true, false⟩,   -- %d/%b/%y
   ⟨'/', false, false⟩,  -- %d/%m/%y
   ⟨'-', false, false⟩,  -- %d-%m-%y
   ⟨'.', false, false⟩,  -- %d.%m.%y
   ⟨'/', true, true⟩,    -- %d/%b/%Y
   ⟨'/', false, true⟩]   -- %d/%m/%Y

/-- `datetime.strptime(s, fmt)` for the six patterns above, returning
`(year, month, day)` on success. -/
def strptime (fmt : DateFmt) (s : String) : Option (Nat × Nat × Nat) :=
  match splitOnChar fmt.sep s.data with
  | [a, b, c] =>
    match parseDay a with
    | none => none
    | some d =>
      match (if fmt.monthAbbrev then monthAbbrevNum ⟨b⟩ else parseMonthNum b) with
      | none => none
      | some m =>
        match (if fmt.year4 then parseYear4 c else parseYear2 c) with
        | none => none
        | some y => if d ≤ daysInMonth y m then some (y, m, d) else none
  | _ => none

/-- Zero-pad a number to two digits (for `%m`, `%d` in `strftime`). -/
def pad2 (n : Nat) : String :=
  if n < 10 then "0" ++ toString n else toString n

/-- Zero-pad a number to four digits (for `%Y` in `strftime`). -/
def pad4 (n : Nat) : String :=
  if n < 10 then "000" ++ toString n
  else if n < 100 then "00" ++ toString n
  else if n < 1000 then "0" ++ toString n
  else toString n

/-- `date_obj.strftime("%Y-%m-%d")`. -/
def renderDate : Nat × Nat × Nat → String
  | (y, m, d) => pad4 y ++ "-" ++ pad2 m ++ "-" ++ pad2 d

/-- `JiraBulkCreator.convert_date`: empty or whitespace-only input yields
`none`; otherwise the stripped input is tried against the six patterns in
declared order and the first successful parse is rendered as `YYYY-MM-DD`;
if no pattern parses, the result is `none` (with a warning printed). -/
def convert_date (date_str : String) : Option String :=
  if pyStrip date_str = "" then none
  else
    date_formats.findSome? (fun fmt => (strptime fmt (pyStrip date_str)).map renderDate)

/-! ## Data model: CSV rows

`TicketRow`s are read by `csv.DictReader` with the fixed header
Milestone, Issue Type, Summary, Description, Priority, Epic Link, Epic Name,
Reporter, Assignee, Parent Link, Target Start, Due Date, Component,
Story Points.  `Row` models one such dictionary row; `valuesInOrder` is
`row.values()` (header order, as Python dicts preserve it). -/

structure TeamMember where
  team : String
  role : String
  name : String
  email : String
deriving DecidableEq

structure Row where
  milestone : String
  issueType : String
  summary : String
  description : String
  priority : String
  epicLink : String
  epicName : String
  reporter : String
  assignee : String
  parentLink : String
  targetStart : String
  dueDate : String
  component : String
  storyPoints : String
deriving DecidableEq

/-- `row.values()` in header-column order. -/
def Row.valuesInOrder (r : Row) : List String :=
  [r.milestone, r.issueType, r.summary, r.description, r.priority, r.epicLink,
   r.epicName, r.reporter, r.assignee, r.parentLink, r.targetStart, r.dueDate,
   r.component, r.storyPoints]

/-- An all-empty row, convenience base for concrete examples. -/
def blankRow : Row :=
  ⟨"", "", "", "", "", "", "", "", "", "", "", "", "", ""⟩

/-! ## Configuration Extractor (`extract_config_from_csv`) -/

/-- The three section states of the extractor's state machine. -/
inductive CsvSection where
  | general
  | resourceAllocation
  | conception
deriving DecidableEq

/-- The configuration model built by `extract_config_from_csv`
(`replacements`, `jira_settings.target_project`, and the optional team
lists, whose keys are only present once a member has been appended). -/
structure ExtractConfig where
  replacements : List (String × String)
  targetProject : String
  resourceAllocationTeams : Option (List TeamMember)
  conceptionTeams : Option (List TeamMember)
deriving DecidableEq

/-- The first non-empty (after strip) column value of a row, stripped:
the `first_col` computation of the extractor. -/
def firstNonEmptyCol (r : Row) : Option String :=
  (r.valuesInOrder.find? (fun v => pyStrip v != "")).map pyStrip

/-- The literal-value placeholder tokens the general section recognizes
(besides `<target_project>`, which is handled separately). -/
def literalTokens : List String :=
  ["<project_key>", "<project_name>", "<project_charter>", "<program_manager>",
   "<project_target_start>", "<project_due_date>", "<review_due_date>"]

/-- The symbolic epic/parent tokens, kept self-mapped so they survive
substitution until the submission phase resolves them. -/
def symbolicTokens : List String :=
  ["<parent_link>", "<resource_alocation_epic>", "<conception_epic>",
   "<initiation_epic>", "<enablement_epic>", "<uat_closure_epic>"]

/-- Processing of one data row inside the `General Configuration` section:
the placeholder is the Milestone cell, the value the Issue-Type cell. -/
def extractGeneralRow (cfg : ExtractConfig) (r : Row) : ExtractConfig :=
  if pyStrip r.milestone ≠ "" ∧ pyStrip r.issueType ≠ "" ∧
      pyStartsWith (pyStrip r.milestone) "<" ∧ pyEndsWith (pyStrip r.milestone) ">" then
    if pyStrip r.milestone = "<target_project>" then
      { cfg with targetProject := pyStrip r.issueType,
                 replacements := insertAssoc (pyStrip r.milestone)
                   (pyStrip r.issueType) cfg.replacements }
    else if pyStrip r.milestone ∈ literalTokens then
      { cfg with replacements :=
                   insertAssoc (pyStrip r.milestone) (pyStrip r.issueType) cfg.replacements }
    else if pyStrip r.milestone ∈ symbolicTokens then
      { cfg with replacements :=
                   insertAssoc (pyStrip r.milestone) (pyStrip r.milestone) cfg.replacements }
    else cfg
  else cfg

/-- Team-roster row inside `Resource Allocation Tickets` / `Conception
Tickets`: team, role, name, email come from the Milestone, Issue-Type,
Summary and Description columns; the row counts only if team, role and name
are non-empty and none of them starts with `<`. -/
def extractTeamRow (r : Row) : Option TeamMember :=
  let team := pyStrip r.milestone
  let role := pyStrip r.issueType
  let name := pyStrip r.summary
  let email := pyStrip r.description
  if team ≠ "" ∧ role ≠ "" ∧ name ≠ "" ∧
      ¬ pyStartsWith team "<" ∧ ¬ pyStartsWith role "<" ∧ ¬ pyStartsWith name "<" then
    some ⟨team, role, name, email⟩
  else none

/-- `config['..._teams'].append(member)`, creating the key on first use. -/
def appendMember (ts : Option (List TeamMember)) (m : TeamMember) :
    Option (List TeamMember) :=
  some (ts.getD [] ++ [m])

/-- One step of the extractor's row loop. -/
def extract_step (st : Option CsvSection × ExtractConfig) (r : Row) :
    Option CsvSection × ExtractConfig :=
  let (sec, cfg) := st
  match firstNonEmptyCol r with
  | none => (sec, cfg)
  | some fc =>
    if fc = "General Configuration" then (some .general, cfg)
    else if fc = "Resource Allocation Tickets" then (some .resourceAllocation, cfg)
    else if fc = "Conception Tickets" then (some .conception, cfg)
    else if fc = "Team" ∨ fc = "Role" ∨ fc = "Name" ∨ fc = "Email" then (sec, cfg)
    else
      match sec with
      | some .general => (sec, extractGeneralRow cfg r)
      | some .resourceAllocation =>
        match extractTeamRow r with
        | some m =>
          (sec, { cfg with resourceAllocationTeams :=
                    appendMember cfg.resourceAllocationTeams m })
        | none => (sec, cfg)
      | some .conception =>
        match extractTeamRow r with
        | some m =>
          (sec, { cfg with conceptionTeams := appendMember cfg.conceptionTeams m })
        | none => (sec, cfg)
      | none => (sec, cfg)

/-- After the scan the six symbolic tokens are unconditionally set
self-mapped, in the source's order. -/
def setDefaultSymbolic (reps : List (String × String)) : List (String × String) :=
  symbolicTokens.foldl (fun acc tok => insertAssoc tok tok acc) reps

/-- Indexable per-team placeholders `<PRE_team_i>`, `<PRE_role_i>`,
`<PRE_name_i>`, `<PRE_email_i>` for `i = 0..n-1`. -/
def addIndexedTeamTokens (pre : String) : Nat → List (String × String) →
    List TeamMember → List (String × String)
  | _, reps, [] => reps
  | i, reps, t :: rest =>
    let idx := toString i
    let reps := insertAssoc ("<" ++ pre ++ "_team_" ++ idx ++ ">") t.team reps
    let reps := insertAssoc ("<" ++ pre ++ "_role_" ++ idx ++ ">") t.role reps
    let reps := insertAssoc ("<" ++ pre ++ "_name_" ++ idx ++ ">") t.name reps
    let reps := insertAssoc ("<" ++ pre ++ "_email_" ++ idx ++ ">") t.email reps
    addIndexedTeamTokens pre (i + 1) reps rest

/-- `extract_config_from_csv`, starting from the parsed data rows
(file handling and the `metisara.conf` default project are parameters). -/
def extract_config_from_csv (defaultProject : String) (rows : List Row) :
    ExtractConfig :=
  let init : ExtractConfig := ⟨[], defaultProject, none, none⟩
  let cfg := (rows.foldl extract_step (none, init)).2
  let reps := setDefaultSymbolic cfg.replacements
  let reps :=
    match cfg.resourceAllocationTeams with
    | some ts => addIndexedTeamTokens "ra" 0 reps ts
    | none => reps
  let reps :=
    match cfg.conceptionTeams with
    | some ts => addIndexedTeamTokens "conception" 0 reps ts
    | none => reps
  { cfg with replacements := reps }

/-! ## Ticket Row Generator (`generate_ra_tickets`,
`generate_conception_review_tickets`)

Generated rows are positional 14-cell lists, as written by `csv.writer`. -/

/-- `generate_ra_tickets`. -/
def generate_ra_tickets (config : ExtractConfig) : List (List String) :=
  match config.resourceAllocationTeams with
  | none => []
  | some teams =>
    let project_key := (lookupAssoc "<project_key>" config.replacements).getD "PROJECT"
    let program_manager := (lookupAssoc "<program_manager>" config.replacements).getD ""
    let project_target_start :=
      (lookupAssoc "<project_target_start>" config.replacements).getD ""
    let project_due_date := (lookupAssoc "<project_due_date>" config.replacements).getD ""
    teams.map (fun team =>
      ["Resource Allocation", "Tracker",
       project_key ++ "M00: RA - " ++ team.role ++ " - " ++ team.name,
       "", "Normal", "<resource_alocation_epic>", "", program_manager,
       team.email, "<parent_link>", project_target_start, project_due_date,
       "Resource Allocation", ""])

/-- `generate_conception_review_tickets`. -/
def generate_conception_review_tickets (config : ExtractConfig) : List (List String) :=
  match config.conceptionTeams with
  | none => []
  | some teams =>
    let program_manager := (lookupAssoc "<program_manager>" config.replacements).getD ""
    let project_charter := (lookupAssoc "<project_charter>" config.replacements).getD ""
    let review_due_date := (lookupAssoc "<review_due_date>" config.replacements).getD ""
    teams.map (fun team =>
      ["Conception", "Story",
       "Team, Review Project Charter - " ++ team.role ++ " - " ++ team.name,
       "Please review the [Project Charter|" ++ project_charter ++
         "] and provide your sign-off by resolving this ticket. If you have any questions, concerns, or suggestions, please add inline comments to the charter document.",
       "Normal", "<conception_epic>", "", program_manager, team.email,
       "<parent_link>", "", review_due_date, "Review", "1"])

/-! ## Placeholder Substitution Engine (`replace_placeholders_in_csv`)

Modelled from the CSV-row level: the input is the list of parsed rows
(positional cell lists) and the output the list of rows written.  The AI
disclaimer comment lines and file I/O are outside the embedding. -/

/-- Substituting one cell: one `str.replace` pass per replacement key,
in the dictionary's insertion order, each pass running on the output of
the previous one. -/
def replaceCell (replacements : List (String × String)) (cell : String) : String :=
  replacements.foldl (fun acc pr => pyReplace acc pr.1 pr.2) cell

/-- The three configuration-section marker strings. -/
def configSectionMarkers : List String :=
  ["General Configuration", "Resource Allocation Tickets", "Conception Tickets"]

/-- The `in_config_section` update at the top of the row loop
(the exact if/elif chain from the source: a marker first cell enters a
configuration section; a non-empty, non-`<`-prefixed first cell outside a
section keeps it off; an empty first cell leaves any section). -/
def updateInConfig (inConfig : Bool) (firstCell : String) : Bool :=
  if firstCell ∈ configSectionMarkers then true
  else if firstCell ≠ "" ∧ ¬ pyStartsWith firstCell "<" ∧ inConfig = false then false
  else if firstCell = "" then false
  else inConfig

/-- `is_user_template_row`: outside a configuration section, a row with
more than two cells whose third cell (`row[2]`, the Summary column)
contains both `<ra_role>` and `<ra_name>`, or both `<conception_role>` and
`<conception_name>`. -/
def isUserTemplateRow (inConfig : Bool) (row : List String) : Bool :=
  !inConfig && decide (row.length > 2) &&
    ((containsStr (row.getD 2 "") "<ra_role>" && containsStr (row.getD 2 "") "<ra_name>") ||
     (containsStr (row.getD 2 "") "<conception_role>" &&
      containsStr (row.getD 2 "") "<conception_name>"))

/-- Loop state of `replace_placeholders_in_csv`: the section flag, the two
set-once insertion flags, and the rows written so far. -/
structure SubstState where
  inConfig : Bool
  raAdded : Bool
  conceptionAdded : Bool
  out : List (List String)
deriving DecidableEq

/-- One iteration of the row loop of `replace_placeholders_in_csv`.
(The source indexes `processed_row[2]` unguarded in the insertion-point
checks, which would raise `IndexError` on a two-cell row and abort; cells
beyond the row length are modelled as `""`, and no claim exercises that
corner.)  The insertion-point conditions test the `config` argument's
truthiness, modelled by the `Option`. -/
def process_row (reps : List (String × String)) (config : Option ExtractConfig)
    (st : SubstState) (row : List String) : SubstState :=
  let ic := updateInConfig st.inConfig (row.headD "")
  if isUserTemplateRow ic row then
    { st with inConfig := ic }
  else
    let processed := if ic then row else row.map (replaceCell reps)
    let out1 := st.out ++ [processed]
    let fireRa :=
      config.isSome ∧ processed.length > 1 ∧
        containsStr (processed.getD 1 "") "Epic" ∧
        containsStr (processed.getD 2 "") "UAT / Project Closure" ∧ st.raAdded = false
    let out2 :=
      if fireRa then
        out1 ++ ((generate_ra_tickets (config.getD ⟨[], "", none, none⟩)).map
          (fun t => t.map (replaceCell reps)))
      else out1
    let ra2 := if fireRa then true else st.raAdded
    let fireConception :=
      config.isSome ∧ processed.length > 1 ∧
        containsStr (processed.getD 0 "") "Conception" ∧
        containsStr (processed.getD 1 "") "Story" ∧
        containsStr (processed.getD 2 "") "Fill in project charter" ∧
        st.conceptionAdded = false
    let out3 :=
      if fireConception then
        out2 ++ ((generate_conception_review_tickets (config.getD ⟨[], "", none, none⟩)).map
          (fun t => t.map (replaceCell reps)))
      else out2
    let ca2 := if fireConception then true else st.conceptionAdded
    { inConfig := ic, raAdded := ra2, conceptionAdded := ca2, out := out3 }

/-- `replace_placeholders_in_csv`, from parsed input rows to written rows. -/
def replace_placeholders_in_csv (reps : List (String × String))
    (config : Option ExtractConfig) (rows : List (List String)) :
    List (List String) :=
  (rows.foldl (process_row reps config) ⟨false, false, false, []⟩).out

/-! ## Dependency-Ordered Submission Driver (`JiraBulkCreator`)

State and per-row processing of `process_csv` / `create_issue_from_row` /
`create_issue`.  The external tracker is an oracle `o : Nat → Option String`
giving, for the n-th creation call of the run, either the created issue's
key or `none` (the tracker rejected the payload and the `except` branch
ran).  In dry-run mode the oracle is ignored and keys are synthesized from
the dry-run counter.  `nCalls` is the number of `create_issue` calls so
far: in dry-run mode it is exactly `self.dry_run_counter`; in live mode it
is the position in the call sequence used to index the oracle. -/

/-- The mutable resolution state of a `JiraBulkCreator` instance:
`created_issues` (epic display name → issue key), `epic_placeholders`
(symbolic token → issue key), `parent_project_key`, and the creation-call
counter. -/
structure TCState where
  createdIssues : List (String × String)
  epicPlaceholders : List (String × String)
  parentProjectKey : Option String
  nCalls : Nat
deriving DecidableEq

/-- `JiraBulkCreator.resolve_epic_placeholder`: a `<...>` value is looked
up in `epic_placeholders` (an empty-string stored key is falsy and counts
as unresolved, like `None`); a non-placeholder value is returned as-is. -/
def resolve_epic_placeholder (st : TCState) (epic_link : String) : Option String :=
  if pyStartsWith epic_link "<" ∧ pyEndsWith epic_link ">" then
    match lookupAssoc epic_link st.epicPlaceholders with
    | some resolved_key => if resolved_key = "" then none else some resolved_key
    | none => none
  else some epic_link

/-- The issue payload built by `create_issue_from_row` (the `fields` dict;
optional entries are `none` when the source leaves the field out).  Story
points are a float in the source (`float(story_points)` of a digit-only
string), modelled by the underlying natural number. -/
structure IssueData where
  projectKey : String
  summary : String
  issuetype : String
  priorityName : String
  description : Option String
  assignee : Option String
  reporter : Option String
  duedate : Option String
  targetStartField : Option String
  storyPointsField : Option Nat
  componentField : Option String
  epicNameField : Option String
  epicLinkField : Option String
  parentLinkField : Option String
deriving DecidableEq

/-- The payload-construction part of `create_issue_from_row`: extract and
strip the row's cells, skip the row (`None`, before any tracker call) if
Summary or Issue Type is empty, otherwise build the field map.  The target
project comes from the loaded configuration (default `"GUARD"`), passed
here as a parameter. -/
def create_issue_payload (st : TCState) (targetProject : String) (r : Row) :
    Option IssueData :=
  let issue_type := pyStrip r.issueType
  let summary := pyStrip r.summary
  let description := pyStrip r.description
  let priority := pyStrip r.priority
  let assignee := pyStrip r.assignee
  let reporter := pyStrip r.reporter
  let epic_name := pyStrip r.epicName
  let epic_link := pyStrip r.epicLink
  let due_date := convert_date r.dueDate
  let target_start := convert_date r.targetStart
  let component := pyStrip r.component
  let story_points := pyStrip r.storyPoints
  let parent_link := pyStrip r.parentLink
  if summary = "" ∨ issue_type = "" then none
  else some
    { projectKey := targetProject
      summary := summary
      issuetype := issue_type
      priorityName := if priority = "" then "Normal" else priority
      description := if description = "" then none else some description
      assignee := if assignee = "" then none else some assignee
      reporter := if reporter = "" then none else some reporter
      duedate := due_date
      targetStartField := target_start
      storyPointsField :=
        if story_points ≠ "" ∧ pyIsDigit story_points then
          some (digitsToNat story_points.data)
        else none
      componentField := if component = "" then none else some component
      epicNameField :=
        if pyLower issue_type = "epic" ∧ epic_name ≠ "" then some epic_name else none
      epicLinkField :=
        if epic_link ≠ "" then
          match resolve_epic_placeholder st epic_link with
          | some resolved => if resolved = "" then none else some resolved
          | none => none
        else none
      parentLinkField :=
        if parent_link ≠ "" then
          if parent_link = "<parent_link>" then
            match st.parentProjectKey with
            | some pk => if pk = "" then none else some pk
            | none => none
          else if pyStrip parent_link ≠ "" then some parent_link else none
        else none }

/-- The keyword classification of an epic display name into a symbolic
placeholder, in the source's fixed priority order (first match wins). -/
def classifyEpicName (epic_name : String) : Option String :=
  let epic_lower := pyLower epic_name
  if containsStr epic_lower "resource allocation" ∨ containsStr epic_lower "m00" then
    some "<resource_alocation_epic>"
  else if containsStr epic_lower "conception" ∨ containsStr epic_lower "m01" then
    some "<conception_epic>"
  else if containsStr epic_lower "initiation" ∨ containsStr epic_lower "m02" then
    some "<initiation_epic>"
  else if containsStr epic_lower "enablement" ∨ containsStr epic_lower "m03" then
    some "<enablement_epic>"
  else if containsStr epic_lower "uat" ∨ containsStr epic_lower "closure" ∨
      containsStr epic_lower "m04" then
    some "<uat_closure_epic>"
  else none

/-- The epic bookkeeping of `create_issue`'s dry-run branch: on a created
epic with a non-empty epic name, record `created_issues[epic_name] = key`
and bind the classified symbolic placeholder, if any. -/
def recordEpicDry (key issue_type epic_name : String) (st : TCState) : TCState :=
  if pyLower issue_type = "epic" ∧ epic_name ≠ "" then
    let st1 := { st with createdIssues := insertAssoc epic_name key st.createdIssues }
    match classifyEpicName epic_name with
    | some tok =>
      { st1 with epicPlaceholders := insertAssoc tok key st1.epicPlaceholders }
    | none => st1
  else st

/-- The epic bookkeeping of `create_issue`'s live branch — the source
duplicates the dry-run block verbatim with `issue.key` in place of the
fake key. -/
def recordEpicLive (key issue_type epic_name : String) (st : TCState) : TCState :=
  if pyLower issue_type = "epic" ∧ epic_name ≠ "" then
    let st1 := { st with createdIssues := insertAssoc epic_name key st.createdIssues }
    match classifyEpicName epic_name with
    | some tok =>
      { st1 with epicPlaceholders := insertAssoc tok key st1.epicPlaceholders }
    | none => st1
  else st

/-- A dry-run fake key: `f"DRY-{counter:04d}"`. -/
def dryKeyStr (n : Nat) : String := "DRY-" ++ pad4 n

/-- `JiraBulkCreator.create_issue`: in dry-run mode the counter is bumped
and a fake key synthesized (always a success); in live mode the tracker's
response for this call decides success (`some key`) or failure (`none`,
the caught exception). -/
def create_issue (dry : Bool) (resp : Option String) (st : TCState)
    (issue_type epic_name : String) : Option String × TCState :=
  if dry then
    let n := st.nCalls + 1
    let fake_key := dryKeyStr n
    (some fake_key, recordEpicDry fake_key issue_type epic_name { st with nCalls := n })
  else
    match resp with
    | some key =>
      (some key, recordEpicLive key issue_type epic_name { st with nCalls := st.nCalls + 1 })
    | none => (none, { st with nCalls := st.nCalls + 1 })

/-- One row of one phase of `process_csv`: build the payload (skipping the
row when Summary or Issue Type is empty — no tracker call), call
`create_issue` otherwise, and, in the Project phase, store a success's key
as `parent_project_key` when that is still unset (falsy). -/
def stepRow (dry : Bool) (resp : Option String) (targetProject : String)
    (phase1 : Bool) (st : TCState) (r : Row) :
    Option IssueData × Option String × TCState :=
  let payload := create_issue_payload st targetProject r
  let (result, st1) :=
    match payload with
    | none => ((none : Option String), st)
    | some _ => create_issue dry resp st (pyStrip r.issueType) (pyStrip r.epicName)
  let st2 :=
    if phase1 then
      match result with
      | some key =>
        match st1.parentProjectKey with
        | none => { st1 with parentProjectKey := some key }
        | some pk => if pk = "" then { st1 with parentProjectKey := some key } else st1
      | none => st1
    else st1
  (payload, result, st2)

/-- One processed row of the run's log: its CSV row number, whether it was
handled in the Project phase, the row, the resolution state it was
processed against, the payload built (`none` for a skipped row) and the
creation result. -/
structure StepLog where
  rowNum : Nat
  phase1 : Bool
  row : Row
  stateBefore : TCState
  payload : Option IssueData
  result : Option String
deriving DecidableEq

/-- `(rowNum, row)` of a step. -/
def StepLog.numRow (l : StepLog) : Nat × Row := (l.rowNum, l.row)

/-- Final state, the `created_count` / `failed_count` totals of the
summary, and the per-row log. -/
structure RunResult where
  state : TCState
  created : Nat
  failed : Nat
  trace : List StepLog
deriving DecidableEq

/-- The submission loop: process the phase-tagged rows in order, counting
every row with a truthy result as created and every other processed row as
failed (the source's `if result: ... else: failed_count += 1`). -/
def runSteps (dry : Bool) (o : Nat → Option String) (targetProject : String) :
    TCState → List (Bool × Nat × Row) → RunResult
  | st, [] => ⟨st, 0, 0, []⟩
  | st, (ph, n, r) :: rest =>
    let step := stepRow dry (o st.nCalls) targetProject ph st r
    let restRun := runSteps dry o targetProject step.2.2 rest
    { state := restRun.state
      created := if step.2.1.isSome then restRun.created + 1 else restRun.created
      failed := if step.2.1.isSome then restRun.failed else restRun.failed + 1
      trace := ⟨n, ph, r, st, step.1, step.2.1⟩ :: restRun.trace }

/-- A row is blank (`not any(value.strip() for value in row.values())`). -/
def Row.isBlank (r : Row) : Bool :=
  r.valuesInOrder.all (fun v => pyStrip v == "")

/-- The row-collection loop of `process_csv` (CSV row numbers start at 2,
as in `enumerate(reader, start=2)`): stop at the first row whose Milestone
cell is a configuration-section marker, skip blank rows, keep the rest. -/
def collectRowsAux : Nat → List Row → List (Nat × Row)
  | _, [] => []
  | n, r :: rest =>
    if pyStrip r.milestone ∈ configSectionMarkers then []
    else if r.isBlank then collectRowsAux (n + 1) rest
    else (n, r) :: collectRowsAux (n + 1) rest

/-- All rows collected by `process_csv` before the phase partition. -/
def collectRows (rows : List Row) : List (Nat × Row) :=
  collectRowsAux 2 rows

/-- `row.get('Issue Type', '').strip().lower() == 'project'`. -/
def isProjectRow (r : Row) : Bool :=
  pyLower (pyStrip r.issueType) == "project"

/-- `row.get('Issue Type', '').strip().lower() == 'epic'`. -/
def isEpicTypeRow (r : Row) : Bool :=
  pyLower (pyStrip r.issueType) == "epic"

/-- The phase partition of `process_csv`: Project rows (tagged as phase 1),
then Epic rows, then everything else, each sub-list in original order. -/
def phasedRows (collected : List (Nat × Row)) : List (Bool × Nat × Row) :=
  (collected.filter (fun p => isProjectRow p.2)).map (fun p => (true, p.1, p.2)) ++
  (collected.filter (fun p => isEpicTypeRow p.2)).map (fun p => (false, p.1, p.2)) ++
  (collected.filter (fun p => !isProjectRow p.2 && !isEpicTypeRow p.2)).map
    (fun p => (false, p.1, p.2))

/-- The order in which `process_csv` submits the collected rows. -/
def submissionOrder (collected : List (Nat × Row)) : List (Nat × Row) :=
  (phasedRows collected).map (fun t => (t.2.1, t.2.2))

/-- The empty resolution state a run starts from. -/
def initialState : TCState := ⟨[], [], none, 0⟩

/-- `JiraBulkCreator.process_csv`, from the parsed (comment-filtered) CSV
rows: collect rows up to the first configuration marker, partition into the
three phases, and drive the submission loop. -/
def process_csv (dry : Bool) (o : Nat → Option String) (targetProject : String)
    (rows : List Row) : RunResult :=
  runSteps dry o targetProject initialState (phasedRows (collectRows rows))

/-- The key of the first Project-phase step of a trace whose result was a
success — the row that `process_csv` promotes to `parent_project_key`. -/
def firstProjectSuccessKey : List StepLog → Option String
  | [] => none
  | l :: rest =>
    if l.phase1 then
      match l.result with
      | some k => some k
      | none => firstProjectSuccessKey rest
    else firstProjectSuccessKey rest

/-- The phase a row is partitioned into, as a rank: Project rows first (0),
Epic rows second (1), everything else last (2). -/
def rowPhaseRank (r : Row) : Nat :=
  if isProjectRow r then 0 else if isEpicTypeRow r then 1 else 2

/-- The rank of a processed step. -/
def phaseRank (l : StepLog) : Nat := rowPhaseRank l.row

/-- Correspondence between a dry-run state and an all-successes live state
driven by the key function `k`: equal call counters, equal epic-name and
placeholder key sequences (the values differing only as fake key vs.
`k`-key of the same call), and parents either both unset or set from the
same creation call. -/
def SimRel (k : Nat → String) (st1 st2 : TCState) : Prop :=
  st1.nCalls = st2.nCalls ∧
  st1.createdIssues.map Prod.fst = st2.createdIssues.map Prod.fst ∧
  st1.epicPlaceholders.map Prod.fst = st2.epicPlaceholders.map Prod.fst ∧
  ((st1.parentProjectKey = none ∧ st2.parentProjectKey = none) ∨
    (∃ c, st1.parentProjectKey = some (dryKeyStr (c + 1)) ∧
          st2.parentProjectKey = some (k c)))

/-! # Theorems -/

/-! ## C9: date normalization -/

/-- C9: `convert_date` tries the six declared patterns in their fixed order
and returns the `YYYY-MM-DD` rendering of the first one that parses; empty
or whitespace-only input yields `none`; input matching no pattern yields
`none` rather than an error; concretely `"4/Sep/25"` yields `"2025-09-04"`
and `"18/11/25"` yields `"2025-11-18"`. -/
theorem convert_date_contract :
    (∀ s : String, pyStrip s = "" → convert_date s = none) ∧
    (∀ (s : String) (pre post : List DateFmt) (fmt : DateFmt) (r : Nat × Nat × Nat),
      pyStrip s ≠ "" →
      date_formats = pre ++ fmt :: post →
      (∀ f ∈ pre, strptime f (pyStrip s) = none) →
      strptime fmt (pyStrip s) = some r →
      convert_date s = some (renderDate r)) ∧
    (∀ s : String, (∀ f ∈ date_formats, strptime f (pyStrip s) = none) →
      convert_date s = none) ∧
    convert_date "4/Sep/25" = some "2025-09-04" ∧
    convert_date "18/11/25" = some "2025-11-18" ∧
    convert_date "18-11-25" = some "2025-11-18" ∧
    convert_date "18.11.25" = some "2025-11-18" ∧
    convert_date "4/Sep/2025" = some "2025-09-04" ∧
    convert_date "18/11/2025" = some "2025-11-18" ∧
    convert_date "not-a-date" = none ∧
    convert_date "" = none := by
  refine ⟨?_, ?_, ?_, ?_, ?_, ?_, ?_, ?_, ?_, ?_, ?_⟩
  · intro s h
    simp [convert_date, h]
  · intro s pre post fmt r hne heq hpre hfmt
    have hprenone : pre.findSome? (fun f => (strptime f (pyStrip s)).map renderDate) = none := by
      rw [List.findSome?_eq_none_iff]
      intro f hf
      rw [hpre f hf]
      rfl
    simp only [convert_date, if_neg hne, heq, List.findSome?_append, hprenone,
      List.findSome?_cons, hfmt, Option.none_or, Option.map_some']
  · intro s h
    by_cases hempty : pyStrip s = ""
    · simp [convert_date, hempty]
    · simp only [convert_date, if_neg hempty]
      rw [List.findSome?_eq_none_iff]
      intro f hf
      rw [h f hf]
      rfl
  · decide
  · decide
  · decide
  · decide
  · decide
  · decide
  · decide
  · decide

/-- Witness for C9: the hypothesis-bearing parts of `convert_date_contract`
instantiated at concrete inputs: a whitespace-only string yields `none`, and
`"18/11/25"` fails the first pattern but parses under the second, yielding
its rendering. -/
theorem convert_date_contract_witness :
    convert_date "  " = none ∧ convert_date "18/11/25" = some "2025-11-18" :=
  ⟨convert_date_contract.1 "  " (by decide),
   convert_date_contract.2.1 "18/11/25" [⟨'/', true, false⟩]
     [⟨'-', false, false⟩, ⟨'.', false, false⟩, ⟨'/', true, true⟩, ⟨'/', false, true⟩]
     ⟨'/', false, false⟩ (2025, 11, 18) (by decide) rfl
     (by intro f hf; simp at hf; subst hf; decide) (by decide)⟩

/-! ## C5: general-section extraction -/

/-- C5 counterexample: the claim says every general-section row with a
placeholder Milestone `<...>` and non-empty Issue Type yields
`replacements[token] = value`, but the source only does so for a fixed
whitelist of tokens: the row `Milestone=<custom>, Issue Type=X` produces no
entry at all. -/
theorem extract_unlisted_general_token_ignored :
    lookupAssoc "<custom>"
        (extract_config_from_csv "PROJ"
          [{ blankRow with milestone := "General Configuration" },
           { blankRow with milestone := "<custom>", issueType := "X" }]).replacements
      ≠ some "X" ∧
    lookupAssoc "<custom>"
        (extract_config_from_csv "PROJ"
          [{ blankRow with milestone := "General Configuration" },
           { blankRow with milestone := "<custom>", issueType := "X" }]).replacements
      = none := by
  constructor <;> decide

/-- C5 (amended): inside the `General Configuration` section, a row whose
Milestone cell is a placeholder `<...>` and whose Issue-Type cell is
non-empty adds `replacements[token] = value` only when the token is
`<target_project>` (which additionally sets the target project) or one of
the recognized literal tokens (`<project_key>`, `<project_name>`,
`<project_charter>`, `<program_manager>`, `<project_target_start>`,
`<project_due_date>`, `<review_due_date>`); the symbolic epic/parent tokens
are mapped to themselves; any other placeholder token is ignored.  In
particular `Milestone=<project_key>, Issue Type=ABC` yields
`replacements["<project_key>"] = "ABC"`. -/
theorem extract_general_row_spec :
    (∀ (cfg : ExtractConfig) (r : Row),
      pyStrip r.milestone ≠ "" → pyStrip r.issueType ≠ "" →
      pyStartsWith (pyStrip r.milestone) "<" → pyEndsWith (pyStrip r.milestone) ">" →
      ((pyStrip r.milestone = "<target_project>" →
          extractGeneralRow cfg r =
            { cfg with targetProject := pyStrip r.issueType,
                       replacements := insertAssoc (pyStrip r.milestone)
                         (pyStrip r.issueType) cfg.replacements }) ∧
       (pyStrip r.milestone ∈ literalTokens →
          extractGeneralRow cfg r =
            { cfg with replacements :=
                         insertAssoc (pyStrip r.milestone) (pyStrip r.issueType)
                           cfg.replacements }) ∧
       (pyStrip r.milestone ∈ symbolicTokens →
          extractGeneralRow cfg r =
            { cfg with replacements :=
                         insertAssoc (pyStrip r.milestone) (pyStrip r.milestone)
                           cfg.replacements }) ∧
       (pyStrip r.milestone ≠ "<target_project>" →
        pyStrip r.milestone ∉ literalTokens →
        pyStrip r.milestone ∉ symbolicTokens →
          extractGeneralRow cfg r = cfg))) ∧
    lookupAssoc "<project_key>"
        (extract_config_from_csv "PROJ"
          [{ blankRow with milestone := "General Configuration" },
           { blankRow with milestone := "<project_key>", issueType := "ABC" }]).replacements
      = some "ABC" := by
  constructor
  · intro cfg r h1 h2 h3 h4
    have hcond : pyStrip r.milestone ≠ "" ∧ pyStrip r.issueType ≠ "" ∧
        pyStartsWith (pyStrip r.milestone) "<" ∧ pyEndsWith (pyStrip r.milestone) ">" :=
      ⟨h1, h2, h3, h4⟩
    refine ⟨?_, ?_, ?_, ?_⟩
    · intro ht
      rw [extractGeneralRow, if_pos hcond, if_pos ht]
    · intro hmem
      have hne : pyStrip r.milestone ≠ "<target_project>" := by
        intro e
        rw [e] at hmem
        exact absurd hmem (by decide)
      rw [extractGeneralRow, if_pos hcond, if_neg hne, if_pos hmem]
    · intro hmem
      have hne : pyStrip r.milestone ≠ "<target_project>" := by
        intro e
        rw [e] at hmem
        exact absurd hmem (by decide)
      have hnl : pyStrip r.milestone ∉ literalTokens := by
        intro hl
        simp only [literalTokens, List.mem_cons, List.not_mem_nil, or_false] at hl
        rcases hl with h | h | h | h | h | h | h <;>
          · rw [h] at hmem
            exact absurd hmem (by decide)
      rw [extractGeneralRow, if_pos hcond, if_neg hne, if_neg hnl, if_pos hmem]
    · intro hne hnl hns
      rw [extractGeneralRow, if_pos hcond, if_neg hne, if_neg hnl, if_neg hns]
  · decide

/-- Witness for C5's amended theorem: a literal token
(`<program_manager>`) is inserted with its value by the general-section
row handler. -/
theorem extract_general_row_spec_witness :
    extractGeneralRow ⟨[], "PROJ", none, none⟩
        { blankRow with milestone := "<program_manager>", issueType := "Alice" } =
      ⟨[("<program_manager>", "Alice")], "PROJ", none, none⟩ :=
  ((extract_general_row_spec.1 ⟨[], "PROJ", none, none⟩
      { blankRow with milestone := "<program_manager>", issueType := "Alice" }
      (by decide) (by decide) (by decide) (by decide)).2.1 (by decide)).trans
    (by decide)

/-! ## C7: substitution is a single linear pass -/

/-- Helper: a replace pass with a nonempty pattern that does not occur in
the input leaves the input unchanged (list level, any fuel). -/
theorem pyReplaceAux_id (v p : List Char) :
    ∀ (fuel : Nat) (s : List Char), containsSub s p = false →
      pyReplaceAux v p fuel s = s := by
  intro fuel
  induction fuel with
  | zero => intro s _; rfl
  | succ n ih =>
    intro s h
    cases s with
    | nil => rfl
    | cons c rest =>
      have h' : (p.isPrefixOf (c :: rest) || containsSub rest p) = false := by
        simpa [containsSub] using h
      rw [Bool.or_eq_false_iff] at h'
      rw [pyReplaceAux, if_neg (by simp [h'.1]), ih rest h'.2]

/-- Helper: `str.replace` with a nonempty pattern that does not occur in
the string is the identity. -/
theorem pyReplace_id (s p v : String) (hp : p ≠ "")
    (h : containsStr s p = false) : pyReplace s p v = s := by
  have hpd : p.data ≠ [] := by
    intro e
    apply hp
    cases p with
    | mk d => cases e; rfl
  rw [pyReplace, if_neg hpd]
  cases s with
  | mk d =>
    have : containsSub d p.data = false := h
    rw [pyReplaceAux_id v.data p.data d.length d this]

/-- C7 (amended): substitution is a single linear pass per replacement key,
in the map's insertion order, not a fixed-point loop: a cell containing no
(nonempty) key is left unchanged; every occurrence of a key is replaced by
its value in its pass; a `<...>` substring introduced by a replacement
value is not re-replaced by the same key or by keys earlier in the order,
but it is replaced when it matches a key that comes later in the order. -/
theorem replaceCell_single_linear_pass :
    (∀ (reps : List (String × String)) (cell : String),
      (∀ pr ∈ reps, pr.1 ≠ "" ∧ containsStr cell pr.1 = false) →
      replaceCell reps cell = cell) ∧
    replaceCell [("<k>", "V")] "a <k> b <k>" = "a V b V" ∧
    replaceCell [("<a>", "x<a>y")] "<a>" = "x<a>y" ∧
    replaceCell [("<b>", "X"), ("<a>", "<b>")] "<a>" = "<b>" ∧
    replaceCell [("<a>", "<b>"), ("<b>", "X")] "<a>" = "X" := by
  refine ⟨?_, by decide, by decide, by decide, by decide⟩
  intro reps cell h
  induction reps with
  | nil => rfl
  | cons pr rest ih =>
    have h1 := h pr (by simp)
    rw [replaceCell, List.foldl_cons, pyReplace_id cell pr.1 pr.2 h1.1 h1.2]
    exact ih (fun q hq => h q (by simp [hq]))

/-- Witness for C7's amended theorem: a placeholder-free cell passes
through substitution unchanged. -/
theorem replaceCell_single_linear_pass_witness :
    replaceCell [("<x>", "Y")] "no tokens here" = "no tokens here" :=
  replaceCell_single_linear_pass.1 [("<x>", "Y")] "no tokens here" (by decide)

/-- C7 counterexample: the claim says a `<...>` substring that appears only
inside a replacement value is never itself replaced by a subsequent
substitution; but with the map `<a> -> <b>, <b> -> X` the cell `<a>`
becomes `X`: the `<b>` introduced by the first pass is replaced by the
later key's pass. -/
theorem replaceCell_value_resubstituted :
    replaceCell [("<a>", "<b>"), ("<b>", "X")] "<a>" = "X" ∧
    ("X" : String) ≠ "<b>" := by
  constructor <;> decide

/-! ## C8: user-entry template rows -/

/-- C8 counterexample: the claim says a row containing both paired template
tokens in the same cell is dropped; but the source only inspects `row[2]`
(the Summary cell): a row carrying both `<ra_role>` and `<ra_name>` in its
fourth cell is emitted, not dropped. -/
theorem template_tokens_outside_summary_not_dropped :
    replace_placeholders_in_csv [] none
        [["Conception", "Story", "keep", "<ra_role> x <ra_name>"]] =
      [["Conception", "Story", "keep", "<ra_role> x <ra_name>"]] := by
  decide

/-- C8 (amended): outside a configuration section, a row with more than two
cells whose third cell (`row[2]`, the Summary column) contains both
`<ra_role>` and `<ra_name>`, or both `<conception_role>` and
`<conception_name>`, is omitted entirely from the output. -/
theorem user_template_row_dropped :
    (∀ (reps : List (String × String)) (config : Option ExtractConfig)
       (st : SubstState) (row : List String),
      isUserTemplateRow (updateInConfig st.inConfig (row.headD "")) row = true →
      (process_row reps config st row).out = st.out) ∧
    replace_placeholders_in_csv [] none
      [["Resource Allocation", "Tracker", "<ra_role> - <ra_name>", ""]] = [] ∧
    replace_placeholders_in_csv [] none
      [["Conception", "Story", "<conception_role> and <conception_name>", ""]] = [] := by
  refine ⟨?_, by decide, by decide⟩
  intro reps config st row h
  simp only [process_row]
  rw [if_pos h]

/-- Witness for C8's amended theorem: a template row with both `<ra_role>`
and `<ra_name>` in its Summary cell adds nothing to the output. -/
theorem user_template_row_dropped_witness :
    (process_row [] none ⟨false, false, false, [["kept"]]⟩
      ["Resource Allocation", "Tracker", "<ra_role> <ra_name>"]).out = [["kept"]] :=
  user_template_row_dropped.1 [] none ⟨false, false, false, [["kept"]]⟩
    ["Resource Allocation", "Tracker", "<ra_role> <ra_name>"] (by decide)

/-! ## C10: truncation at the first configuration-section marker -/

/-- Helper: the row-collection loop stops at the first marker row, whatever
follows it. -/
theorem collectRowsAux_marker :
    ∀ (pre : List Row) (n : Nat) (mrow : Row) (suf : List Row),
      pyStrip mrow.milestone ∈ configSectionMarkers →
      (∀ r ∈ pre, pyStrip r.milestone ∉ configSectionMarkers) →
      collectRowsAux n (pre ++ mrow :: suf) = collectRowsAux n pre := by
  intro pre
  induction pre with
  | nil =>
    intro n mrow suf hm _
    simp only [List.nil_append, collectRowsAux]
    rw [if_pos hm]
  | cons r rest ih =>
    intro n mrow suf hm hpre
    have hr : pyStrip r.milestone ∉ configSectionMarkers := hpre r (by simp)
    simp only [List.cons_append, collectRowsAux]
    rw [if_neg hr, if_neg hr]
    by_cases hb : r.isBlank
    · rw [if_pos hb, if_pos hb]
      exact ih (n + 1) mrow suf hm (fun q hq => hpre q (by simp [hq]))
    · rw [if_neg hb, if_neg hb]
      exact congrArg (fun t => (n, r) :: t)
        (ih (n + 1) mrow suf hm (fun q hq => hpre q (by simp [hq])))

/-- C10: as soon as `process_csv` reads a row whose (stripped) Milestone
cell is `General Configuration`, `Resource Allocation Tickets` or
`Conception Tickets`, it stops collecting rows: that row and every row
after it, whatever their content, are excluded from the collected row set,
and the whole run — phases, submissions, counts, log — is identical to the
run on the rows before the marker. -/
theorem process_csv_truncates_at_marker :
    ∀ (pre : List Row) (mrow : Row) (suf : List Row),
      pyStrip mrow.milestone ∈ configSectionMarkers →
      (∀ r ∈ pre, pyStrip r.milestone ∉ configSectionMarkers) →
      collectRows (pre ++ mrow :: suf) = collectRows pre ∧
      ∀ (dry : Bool) (o : Nat → Option String) (targetProject : String),
        process_csv dry o targetProject (pre ++ mrow :: suf) =
          process_csv dry o targetProject pre := by
  intro pre mrow suf hm hpre
  have hc : collectRows (pre ++ mrow :: suf) = collectRows pre :=
    collectRowsAux_marker pre 2 mrow suf hm hpre
  refine ⟨hc, ?_⟩
  intro dry o targetProject
  rw [process_csv, process_csv, hc]

/-- Witness for C10: a run on Project-row, marker-row, Epic-row equals the
run on the Project row alone. -/
theorem process_csv_truncates_at_marker_witness :
    process_csv true (fun _ => none) "G"
        [⟨"P", "Project", "The project", "", "", "", "", "", "", "", "", "", "", ""⟩,
         ⟨"General Configuration", "", "", "", "", "", "", "", "", "", "", "", "", ""⟩,
         ⟨"E", "Epic", "An epic", "", "", "", "E", "", "", "", "", "", "", ""⟩] =
      process_csv true (fun _ => none) "G"
        [⟨"P", "Project", "The project", "", "", "", "", "", "", "", "", "", "", ""⟩] :=
  (process_csv_truncates_at_marker
      [⟨"P", "Project", "The project", "", "", "", "", "", "", "", "", "", "", ""⟩]
      ⟨"General Configuration", "", "", "", "", "", "", "", "", "", "", "", "", ""⟩
      [⟨"E", "Epic", "An epic", "", "", "", "E", "", "", "", "", "", "", ""⟩]
      (by decide) (by decide)).2 true (fun _ => none) "G"

/-! ## C6: rows with empty Summary or Issue Type -/

/-- C6: a row with empty Summary or empty Issue Type never reaches the
tracker (`create_issue_from_row` returns before any call: here the call
counter stays 0 and the logged payload is `none`), but `process_csv`
counts the row in the failed total: a single row with Milestone
`Initiation` and all other cells empty is reported as 0 created / 1
failed, contradicting the claim that such a row contributes to neither
count. -/
theorem empty_ticket_row_counted_as_failed :
    (process_csv false (fun _ => some "KEY-1") "G"
        [{ blankRow with milestone := "Initiation" }]).created = 0 ∧
    (process_csv false (fun _ => some "KEY-1") "G"
        [{ blankRow with milestone := "Initiation" }]).failed = 1 ∧
    (process_csv false (fun _ => some "KEY-1") "G"
        [{ blankRow with milestone := "Initiation" }]).state.nCalls = 0 ∧
    (process_csv false (fun _ => some "KEY-1") "G"
        [{ blankRow with milestone := "Initiation" }]).trace.map
        (fun l => l.payload) = [none] := by
  refine ⟨by decide, by decide, by decide, by decide⟩

/-! ## C3: best-effort batch continuation -/

/-- Helper: the trace's `(rowNum, row)` projection is exactly the processed
step list, for any oracle, mode and starting state: no step is ever
skipped because of an earlier outcome. -/
theorem runSteps_trace_numRow (dry : Bool) (o : Nat → Option String) (tp : String) :
    ∀ (steps : List (Bool × Nat × Row)) (st : TCState),
      (runSteps dry o tp st steps).trace.map StepLog.numRow =
        steps.map (fun t => (t.2.1, t.2.2)) := by
  intro steps
  induction steps with
  | nil => intro st; rfl
  | cons hd tl ih =>
    intro st
    obtain ⟨ph, n, r⟩ := hd
    simp only [runSteps, List.map_cons]
    rw [ih]
    rfl

/-- Helper: `created_count` counts the steps with a truthy result and
`failed_count` all the others. -/
theorem runSteps_counts (dry : Bool) (o : Nat → Option String) (tp : String) :
    ∀ (steps : List (Bool × Nat × Row)) (st : TCState),
      (runSteps dry o tp st steps).created =
        ((runSteps dry o tp st steps).trace.filter (fun l => l.result.isSome)).length ∧
      (runSteps dry o tp st steps).failed =
        ((runSteps dry o tp st steps).trace.filter (fun l => !l.result.isSome)).length := by
  intro steps
  induction steps with
  | nil => intro st; exact ⟨rfl, rfl⟩
  | cons hd tl ih =>
    intro st
    obtain ⟨ph, n, r⟩ := hd
    simp only [runSteps]
    cases hres : (stepRow dry (o st.nCalls) tp ph st r).2.1 with
    | none => simp [hres, List.filter_cons, (ih _).1, (ih _).2]
    | some k => simp [hres, List.filter_cons, (ih _).1, (ih _).2]

/-- Helper: the payload is skipped exactly for empty (stripped) Summary or
Issue Type. -/
theorem create_issue_payload_skip (st : TCState) (tp : String) (r : Row) :
    create_issue_payload st tp r = none ↔
      (pyStrip r.summary = "" ∨ pyStrip r.issueType = "") := by
  simp only [create_issue_payload]
  split
  next h => simp [h]
  next h => simp [h]

/-- C3: per-row recoverable conditions never halt the run.  For any oracle
(any pattern of tracker rejections) the trace still processes exactly the
phased collected rows in order, and the created/failed counts are exactly
the successful/unsuccessful processed rows.  An Epic Link that is a `<...>`
token absent from the resolution table is dropped from the payload while the
payload is still built; and whenever the tracker accepts the call, the row
is created regardless. -/
theorem best_effort_batch :
    (∀ (dry : Bool) (o : Nat → Option String) (tp : String) (rows : List Row),
      (process_csv dry o tp rows).trace.map StepLog.numRow =
        submissionOrder (collectRows rows) ∧
      (process_csv dry o tp rows).created =
        ((process_csv dry o tp rows).trace.filter (fun l => l.result.isSome)).length ∧
      (process_csv dry o tp rows).failed =
        ((process_csv dry o tp rows).trace.filter (fun l => !l.result.isSome)).length) ∧
    (∀ (st : TCState) (tp : String) (r : Row),
      pyStartsWith (pyStrip r.epicLink) "<" →
      pyEndsWith (pyStrip r.epicLink) ">" →
      lookupAssoc (pyStrip r.epicLink) st.epicPlaceholders = none →
      pyStrip r.summary ≠ "" → pyStrip r.issueType ≠ "" →
      ∃ d, create_issue_payload st tp r = some d ∧ d.epicLinkField = none) ∧
    (∀ (key tp : String) (ph : Bool) (st : TCState) (r : Row),
      pyStrip r.summary ≠ "" → pyStrip r.issueType ≠ "" →
      (stepRow false (some key) tp ph st r).2.1 = some key) := by
  refine ⟨?_, ?_, ?_⟩
  · intro dry o tp rows
    refine ⟨?_, (runSteps_counts dry o tp _ _).1, (runSteps_counts dry o tp _ _).2⟩
    rw [process_csv, runSteps_trace_numRow]
    rfl
  · intro st tp r h1 h2 h3 hs ht
    have hne : pyStrip r.epicLink ≠ "" := by
      intro e
      rw [e] at h1
      exact absurd h1 (by decide)
    simp only [create_issue_payload]
    rw [if_neg (by push_neg; exact ⟨hs, ht⟩)]
    refine ⟨_, rfl, ?_⟩
    simp only [resolve_epic_placeholder]
    rw [if_pos hne, if_pos ⟨h1, h2⟩, h3]
  · intro key tp ph st r hs ht
    have hp : create_issue_payload st tp r ≠ none := by
      intro e
      rcases (create_issue_payload_skip st tp r).mp e with h | h
      exacts [hs h, ht h]
    simp only [stepRow]
    cases hpay : create_issue_payload st tp r with
    | none => exact absurd hpay hp
    | some d =>
      simp [hpay, create_issue]

/-- Witness for C3: an unresolved `<conception_epic>` link is dropped from
the payload of a row that is still built, and the same row is created when
the tracker accepts. -/
theorem best_effort_batch_witness :
    (∃ d, create_issue_payload initialState "G"
        { blankRow with issueType := "Story", summary := "S",
                        epicLink := "<conception_epic>" } = some d ∧
      d.epicLinkField = none) ∧
    (stepRow false (some "K-1") "G" false initialState
        { blankRow with issueType := "Story", summary := "S",
                        epicLink := "<conception_epic>" }).2.1 = some "K-1" :=
  ⟨best_effort_batch.2.1 initialState "G"
      { blankRow with issueType := "Story", summary := "S",
                      epicLink := "<conception_epic>" }
      (by decide) (by decide) (by decide) (by decide) (by decide),
   best_effort_batch.2.2 "K-1" "G" false initialState
      { blankRow with issueType := "Story", summary := "S",
                      epicLink := "<conception_epic>" }
      (by decide) (by decide)⟩

/-! ## C2: parent-project binding -/

/-- Helper: the dry-run epic bookkeeping does not touch
`parent_project_key`. -/
theorem recordEpicDry_parentKey (key it en : String) (st : TCState) :
    (recordEpicDry key it en st).parentProjectKey = st.parentProjectKey := by
  simp only [recordEpicDry]
  split
  · split <;> rfl
  · rfl

/-- Helper: the live epic bookkeeping does not touch
`parent_project_key`. -/
theorem recordEpicLive_parentKey (key it en : String) (st : TCState) :
    (recordEpicLive key it en st).parentProjectKey = st.parentProjectKey := by
  simp only [recordEpicLive]
  split
  · split <;> rfl
  · rfl

/-- Helper: `create_issue` never writes `parent_project_key`. -/
theorem create_issue_parentKey (dry : Bool) (resp : Option String) (st : TCState)
    (it en : String) :
    (create_issue dry resp st it en).2.parentProjectKey = st.parentProjectKey := by
  cases dry with
  | true => simp [create_issue, recordEpicDry_parentKey]
  | false =>
    cases resp with
    | none => simp [create_issue]
    | some k => simp [create_issue, recordEpicLive_parentKey]

/-- Helper: a dry-run fake key is never the empty string. -/
theorem dryKeyStr_ne_empty (n : Nat) : dryKeyStr n ≠ "" := by
  intro h
  have h2 : (dryKeyStr n).data = ([] : List Char) := by rw [h]
  rw [dryKeyStr, String.data_append, List.append_eq_nil] at h2
  exact absurd h2.1 (by decide)

/-- Helper: how one step changes `parent_project_key`: only a successful
result in the Project phase, and only while the stored parent is falsy
(`None` or empty), writes it. -/
theorem stepRow_parent_eq (dry : Bool) (resp : Option String) (tp : String)
    (ph : Bool) (st : TCState) (r : Row) :
    (stepRow dry resp tp ph st r).2.2.parentProjectKey =
      match (stepRow dry resp tp ph st r).2.1 with
      | some key =>
        if ph then
          match st.parentProjectKey with
          | none => some key
          | some pk => if pk = "" then some key else some pk
        else st.parentProjectKey
      | none => st.parentProjectKey := by
  simp only [stepRow]
  cases hpay : create_issue_payload st tp r with
  | none => cases ph <;> simp
  | some d =>
    have hpar := create_issue_parentKey dry resp st (pyStrip r.issueType) (pyStrip r.epicName)
    cases hres : (create_issue dry resp st (pyStrip r.issueType) (pyStrip r.epicName)).1 with
    | none => cases ph <;> simp [hres, hpar]
    | some key =>
      cases ph with
      | false => simp [hres, hpar]
      | true =>
        cases hp : st.parentProjectKey with
        | none => simp [hres, hp, hpar]
        | some pk =>
          by_cases hpk : pk = "" <;> simp [hres, hp, hpar, hpk]

/-- Helper: where a successful step's key comes from: the dry-run counter,
or the tracker's response for this call. -/
theorem stepRow_result_src (dry : Bool) (resp : Option String) (tp : String)
    (ph : Bool) (st : TCState) (r : Row) (k : String) :
    (stepRow dry resp tp ph st r).2.1 = some k →
      (dry = true ∧ k = dryKeyStr (st.nCalls + 1)) ∨
      (dry = false ∧ resp = some k) := by
  simp only [stepRow]
  cases hpay : create_issue_payload st tp r with
  | none => intro h; exact absurd h (by simp)
  | some d =>
    cases dry with
    | true =>
      intro h
      simp only [create_issue, if_pos] at h
      simp at h
      exact Or.inl ⟨rfl, h.symm⟩
    | false =>
      cases resp with
      | none => intro h; simp [create_issue] at h
      | some key =>
        intro h
        simp [create_issue] at h
        exact Or.inr ⟨rfl, by rw [h]⟩

/-- Helper: a non-falsy `parent_project_key` survives the rest of the run
unchanged. -/
theorem runSteps_parent_stable (dry : Bool) (o : Nat → Option String) (tp : String) :
    ∀ (steps : List (Bool × Nat × Row)) (st : TCState) (pk : String),
      st.parentProjectKey = some pk → pk ≠ "" →
      (runSteps dry o tp st steps).state.parentProjectKey = some pk := by
  intro steps
  induction steps with
  | nil => intro st pk h _; exact h
  | cons hd tl ih =>
    intro st pk h hne
    obtain ⟨ph, n, r⟩ := hd
    simp only [runSteps]
    refine ih _ pk ?_ hne
    rw [stepRow_parent_eq]
    cases (stepRow dry (o st.nCalls) tp ph st r).2.1 with
    | none => exact h
    | some key =>
      cases ph with
      | false => exact h
      | true => rw [h]; simp [hne]

/-- Helper: starting with no parent key, the final `parent_project_key` is
exactly the key of the first successful Project-phase step of the trace
(provided the tracker never returns an empty key). -/
theorem runSteps_parent_first (dry : Bool) (o : Nat → Option String) (tp : String)
    (hko : ∀ n k, o n = some k → k ≠ "") :
    ∀ (steps : List (Bool × Nat × Row)) (st : TCState),
      st.parentProjectKey = none →
      (runSteps dry o tp st steps).state.parentProjectKey =
        firstProjectSuccessKey (runSteps dry o tp st steps).trace := by
  intro steps
  induction steps with
  | nil => intro st h; exact h
  | cons hd tl ih =>
    intro st h
    obtain ⟨ph, n, r⟩ := hd
    simp only [runSteps, firstProjectSuccessKey]
    cases hres : (stepRow dry (o st.nCalls) tp ph st r).2.1 with
    | none =>
      have hp2 : (stepRow dry (o st.nCalls) tp ph st r).2.2.parentProjectKey = none := by
        rw [stepRow_parent_eq, hres]
        exact h
      cases ph with
      | false => simpa [hres] using ih _ hp2
      | true => simpa [hres] using ih _ hp2
    | some key =>
      have hkne : key ≠ "" := by
        rcases stepRow_result_src dry (o st.nCalls) tp ph st r key hres with ⟨_, hk⟩ | ⟨_, hk⟩
        · rw [hk]; exact dryKeyStr_ne_empty _
        · exact hko st.nCalls key hk
      cases ph with
      | false =>
        have hp2 : (stepRow dry (o st.nCalls) tp false st r).2.2.parentProjectKey = none := by
          rw [stepRow_parent_eq, hres]
          exact h
        simpa [hres] using ih _ hp2
      | true =>
        have hp2 : (stepRow dry (o st.nCalls) tp true st r).2.2.parentProjectKey = some key := by
          rw [stepRow_parent_eq, hres, h]
          simp
        simpa [hres] using runSteps_parent_stable dry o tp tl _ key hp2 hkne

/-- C2: `parent_project_key` is bound to the key of the first successful
Project-phase creation and never overwritten afterwards (tracker keys being
non-empty); a row whose stripped Parent Link cell is exactly
`<parent_link>` gets that field resolved to the stored parent key when one
is set, and the field omitted — with the payload still built and the issue
still submittable — when no Project issue has been created yet. -/
theorem parent_project_binding :
    (∀ (dry : Bool) (o : Nat → Option String) (tp : String) (rows : List Row),
      (∀ n k, o n = some k → k ≠ "") →
      (process_csv dry o tp rows).state.parentProjectKey =
        firstProjectSuccessKey (process_csv dry o tp rows).trace) ∧
    (∀ (st : TCState) (tp : String) (r : Row) (pk : String),
      pyStrip r.parentLink = "<parent_link>" →
      pyStrip r.summary ≠ "" → pyStrip r.issueType ≠ "" →
      st.parentProjectKey = some pk → pk ≠ "" →
      ∃ d, create_issue_payload st tp r = some d ∧ d.parentLinkField = some pk) ∧
    (∀ (st : TCState) (tp : String) (r : Row),
      pyStrip r.parentLink = "<parent_link>" →
      pyStrip r.summary ≠ "" → pyStrip r.issueType ≠ "" →
      st.parentProjectKey = none →
      ∃ d, create_issue_payload st tp r = some d ∧ d.parentLinkField = none) := by
  refine ⟨?_, ?_, ?_⟩
  · intro dry o tp rows hko
    exact runSteps_parent_first dry o tp hko _ initialState rfl
  · intro st tp r pk hpl hs ht hpar hne
    simp only [create_issue_payload]
    rw [if_neg (by push_neg; exact ⟨hs, ht⟩)]
    refine ⟨_, rfl, ?_⟩
    rw [hpl, hpar]
    simp [hne]
  · intro st tp r hpl hs ht hpar
    simp only [create_issue_payload]
    rw [if_neg (by push_neg; exact ⟨hs, ht⟩)]
    refine ⟨_, rfl, ?_⟩
    rw [hpl, hpar]
    simp

/-- Witness for C2: in a dry run on one Project row and one Epic row, the
parent key is the first Project-phase success (`DRY-0001`); a story row
with Parent Link `<parent_link>` resolves the field to a set parent key
and omits it under an unset one. -/
theorem parent_project_binding_witness :
    (process_csv true (fun _ => none) "G"
        [{ blankRow with issueType := "Project", summary := "P" },
         { blankRow with issueType := "Epic", summary := "E", epicName := "E" }]).state.parentProjectKey =
      firstProjectSuccessKey
        (process_csv true (fun _ => none) "G"
          [{ blankRow with issueType := "Project", summary := "P" },
           { blankRow with issueType := "Epic", summary := "E", epicName := "E" }]).trace ∧
    (∃ d, create_issue_payload ⟨[], [], some "KEY-7", 3⟩ "G"
        { blankRow with issueType := "Story", summary := "S",
                        parentLink := "<parent_link>" } = some d ∧
      d.parentLinkField = some "KEY-7") ∧
    (∃ d, create_issue_payload initialState "G"
        { blankRow with issueType := "Story", summary := "S",
                        parentLink := "<parent_link>" } = some d ∧
      d.parentLinkField = none) :=
  ⟨parent_project_binding.1 true (fun _ => none) "G"
      [{ blankRow with issueType := "Project", summary := "P" },
       { blankRow with issueType := "Epic", summary := "E", epicName := "E" }]
      (fun n k h => by simp at h),
   parent_project_binding.2.1 ⟨[], [], some "KEY-7", 3⟩ "G"
      { blankRow with issueType := "Story", summary := "S",
                      parentLink := "<parent_link>" } "KEY-7"
      (by decide) (by decide) (by decide) rfl (by decide),
   parent_project_binding.2.2 initialState "G"
      { blankRow with issueType := "Story", summary := "S",
                      parentLink := "<parent_link>" }
      (by decide) (by decide) (by decide) rfl⟩

/-! ## C1: phase ordering and creation-before-reference -/

/-- Helper: a Project-typed row is not Epic-typed. -/
theorem isProjectRow_not_epic (r : Row) (h : isProjectRow r = true) :
    isEpicTypeRow r = false := by
  simp only [isProjectRow, beq_iff_eq] at h
  simp only [isEpicTypeRow, h]
  decide

/-- Helper: ranks of the three phase classes. -/
theorem rowPhaseRank_proj (r : Row) (h : isProjectRow r = true) :
    rowPhaseRank r = 0 := by
  simp [rowPhaseRank, h]

/-- Helper: an Epic-typed row has rank 1. -/
theorem rowPhaseRank_epic (r : Row) (h : isEpicTypeRow r = true) :
    rowPhaseRank r = 1 := by
  have hp : isProjectRow r = false := by
    cases hp : isProjectRow r with
    | false => rfl
    | true => rw [isProjectRow_not_epic r hp] at h; cases h
  simp [rowPhaseRank, hp, h]

/-- Helper: a row in neither of the first two phases has rank 2. -/
theorem rowPhaseRank_other (r : Row) (h1 : isProjectRow r = false)
    (h2 : isEpicTypeRow r = false) : rowPhaseRank r = 2 := by
  simp [rowPhaseRank, h1, h2]

/-- Helper: the rows of the trace are the phased rows, in order. -/
theorem runSteps_trace_rows (dry : Bool) (o : Nat → Option String) (tp : String)
    (steps : List (Bool × Nat × Row)) (st : TCState) :
    (runSteps dry o tp st steps).trace.map (fun l => l.row) =
      steps.map (fun t => t.2.2) := by
  have h2 := congrArg (List.map Prod.snd) (runSteps_trace_numRow dry o tp steps st)
  simpa [List.map_map, Function.comp, StepLog.numRow] using h2

/-- Helper: composing out the phase tags of the phased rows. -/
theorem phasedRows_rows_shape (C : List (Nat × Row)) :
    (phasedRows C).map (fun t => t.2.2) =
      (C.filter (fun p => isProjectRow p.2)).map (fun p => p.2) ++
      ((C.filter (fun p => isEpicTypeRow p.2)).map (fun p => p.2) ++
       (C.filter (fun p => !isProjectRow p.2 && !isEpicTypeRow p.2)).map (fun p => p.2)) := by
  simp only [phasedRows, List.map_append, List.map_map]
  rw [List.append_assoc]
  rfl

/-- Helper: the submission order is the three filtered row classes
concatenated. -/
theorem submissionOrder_shape (C : List (Nat × Row)) :
    submissionOrder C =
      C.filter (fun p => isProjectRow p.2) ++
      (C.filter (fun p => isEpicTypeRow p.2) ++
       C.filter (fun p => !isProjectRow p.2 && !isEpicTypeRow p.2)) := by
  simp [submissionOrder, phasedRows, List.map_map, Function.comp]

/-- Helper: filtering twice with the same predicate changes nothing. -/
theorem filter_filter_self {α : Type} (p : α → Bool) (l : List α) :
    (l.filter p).filter p = l.filter p := by
  rw [List.filter_filter]
  exact List.filter_congr (fun a _ => by cases p a <;> rfl)

/-- Helper: filtering with a predicate pointwise disjoint from the one
already filtered by yields the empty list. -/
theorem filter_filter_disjoint {α : Type} (p q : α → Bool) (l : List α)
    (h : ∀ a, (p a && q a) = false) : (l.filter q).filter p = [] := by
  rw [List.filter_filter]
  rw [List.filter_eq_nil_iff]
  intro a _
  rw [h a]
  simp

/-- Helper: the phased row sequence is weakly sorted by phase rank. -/
theorem phasedRows_rows_pairwise (C : List (Nat × Row)) :
    ((phasedRows C).map (fun t => t.2.2)).Pairwise
      (fun a b => rowPhaseRank a ≤ rowPhaseRank b) := by
  have hA : ∀ a ∈ (C.filter (fun p => isProjectRow p.2)).map (fun p => p.2),
      rowPhaseRank a = 0 := by
    intro a ha
    rcases List.mem_map.mp ha with ⟨p, hp, rfl⟩
    exact rowPhaseRank_proj _ (List.mem_filter.mp hp).2
  have hB : ∀ a ∈ (C.filter (fun p => isEpicTypeRow p.2)).map (fun p => p.2),
      rowPhaseRank a = 1 := by
    intro a ha
    rcases List.mem_map.mp ha with ⟨p, hp, rfl⟩
    exact rowPhaseRank_epic _ (List.mem_filter.mp hp).2
  have hC : ∀ a ∈ (C.filter (fun p => !isProjectRow p.2 && !isEpicTypeRow p.2)).map
      (fun p => p.2), rowPhaseRank a = 2 := by
    intro a ha
    rcases List.mem_map.mp ha with ⟨p, hp, rfl⟩
    have h2 := (List.mem_filter.mp hp).2
    rw [Bool.and_eq_true, Bool.not_eq_true', Bool.not_eq_true'] at h2
    exact rowPhaseRank_other _ h2.1 h2.2
  rw [phasedRows_rows_shape]
  rw [List.pairwise_append]
  refine ⟨?_, ?_, ?_⟩
  · exact List.pairwise_of_forall_mem_list
      (fun a ha b hb => by rw [hA a ha]; exact Nat.zero_le _)
  · rw [List.pairwise_append]
    refine ⟨?_, ?_, ?_⟩
    · exact List.pairwise_of_forall_mem_list
        (fun a ha b hb => by rw [hB a ha, hB b hb])
    · exact List.pairwise_of_forall_mem_list
        (fun a ha b hb => by rw [hC a ha, hC b hb])
    · intro a ha b hb
      rw [hB a ha, hC b hb]
      omega
  · intro a ha b hb
    rw [hA a ha]
    exact Nat.zero_le _

/-- Helper: filtering the submission order for Project rows recovers the
Project rows of the collected set, in their original order. -/
theorem submissionOrder_filter_proj (C : List (Nat × Row)) :
    (submissionOrder C).filter (fun p => isProjectRow p.2) =
      C.filter (fun p => isProjectRow p.2) := by
  rw [submissionOrder_shape, List.filter_append, List.filter_append]
  rw [filter_filter_self]
  rw [filter_filter_disjoint _ _ _ (fun a => by
    cases hp : isProjectRow a.2 with
    | true => simp [isProjectRow_not_epic a.2 hp]
    | false => simp)]
  rw [filter_filter_disjoint _ _ _ (fun a => by
    cases hp : isProjectRow a.2 <;> simp [hp])]
  simp

/-- Helper: filtering the submission order for Epic rows recovers the Epic
rows of the collected set, in their original order. -/
theorem submissionOrder_filter_epic (C : List (Nat × Row)) :
    (submissionOrder C).filter (fun p => isEpicTypeRow p.2) =
      C.filter (fun p => isEpicTypeRow p.2) := by
  rw [submissionOrder_shape, List.filter_append, List.filter_append]
  rw [filter_filter_disjoint _ _ _ (fun a => by
    cases hp : isProjectRow a.2 with
    | true => simp [hp, isProjectRow_not_epic a.2 hp]
    | false => simp [hp])]
  rw [filter_filter_self]
  rw [filter_filter_disjoint _ _ _ (fun a => by
    cases he : isEpicTypeRow a.2 <;> simp [he])]
  simp

/-- Helper: filtering the submission order for remainder rows recovers the
remainder rows of the collected set, in their original order. -/
theorem submissionOrder_filter_other (C : List (Nat × Row)) :
    (submissionOrder C).filter (fun p => !isProjectRow p.2 && !isEpicTypeRow p.2) =
      C.filter (fun p => !isProjectRow p.2 && !isEpicTypeRow p.2) := by
  rw [submissionOrder_shape, List.filter_append, List.filter_append]
  rw [filter_filter_disjoint _ _ _ (fun a => by
    cases hp : isProjectRow a.2 <;> simp [hp])]
  rw [filter_filter_disjoint _ _ _ (fun a => by
    cases he : isEpicTypeRow a.2 <;> simp [he])]
  rw [filter_filter_self]
  simp

/-- Helper: membership after a dict assignment. -/
theorem mem_insertAssoc {α : Type} (k : String) (v : α) :
    ∀ (l : List (String × α)) (p : String × α),
      p ∈ insertAssoc k v l → p = (k, v) ∨ p ∈ l := by
  intro l
  induction l with
  | nil =>
    intro p hp
    simp only [insertAssoc, List.mem_singleton] at hp
    exact Or.inl hp
  | cons q rest ih =>
    intro p hp
    obtain ⟨qk, qv⟩ := q
    rw [insertAssoc] at hp
    by_cases he : qk = k
    · rw [if_pos he] at hp
      rcases List.mem_cons.mp hp with h | h
      · exact Or.inl h
      · exact Or.inr (List.mem_cons_of_mem _ h)
    · rw [if_neg he] at hp
      rcases List.mem_cons.mp hp with h | h
      · exact Or.inr (h ▸ List.mem_cons_self _ _)
      · rcases ih p h with h' | h'
        · exact Or.inl h'
        · exact Or.inr (List.mem_cons_of_mem _ h')

/-- Helper: a successful dict lookup is a membership. -/
theorem lookupAssoc_mem {α : Type} (k : String) :
    ∀ (l : List (String × α)) (v : α), lookupAssoc k l = some v → (k, v) ∈ l := by
  intro l
  induction l with
  | nil => intro v h; exact absurd h (by simp [lookupAssoc])
  | cons q rest ih =>
    intro v h
    obtain ⟨qk, qv⟩ := q
    rw [lookupAssoc] at h
    by_cases he : qk = k
    · rw [if_pos he] at h
      cases h
      exact he ▸ List.mem_cons_self _ _
    · rw [if_neg he] at h
      exact List.mem_cons_of_mem _ (ih v h)

/-- Helper: a placeholder binding present after the dry-run epic
bookkeeping either was already present, or was bound by this very epic. -/
theorem recordEpicDry_placeholders_src (key it en : String) (st : TCState)
    (p : String × String)
    (hp : p ∈ (recordEpicDry key it en st).epicPlaceholders) :
    p ∈ st.epicPlaceholders ∨
      (p.2 = key ∧ pyLower it = "epic" ∧ en ≠ "" ∧
        classifyEpicName en = some p.1) := by
  simp only [recordEpicDry] at hp
  split at hp
  next h =>
    cases hcl : classifyEpicName en with
    | none => rw [hcl] at hp; exact Or.inl hp
    | some tok =>
      rw [hcl] at hp
      rcases mem_insertAssoc tok key _ p hp with heq | hin
      · subst heq
        exact Or.inr ⟨rfl, h.1, h.2, rfl⟩
      · exact Or.inl hin
  next => exact Or.inl hp

/-- Helper: a placeholder binding present after the live epic bookkeeping
either was already present, or was bound by this very epic. -/
theorem recordEpicLive_placeholders_src (key it en : String) (st : TCState)
    (p : String × String)
    (hp : p ∈ (recordEpicLive key it en st).epicPlaceholders) :
    p ∈ st.epicPlaceholders ∨
      (p.2 = key ∧ pyLower it = "epic" ∧ en ≠ "" ∧
        classifyEpicName en = some p.1) := by
  simp only [recordEpicLive] at hp
  split at hp
  next h =>
    cases hcl : classifyEpicName en with
    | none => rw [hcl] at hp; exact Or.inl hp
    | some tok =>
      rw [hcl] at hp
      rcases mem_insertAssoc tok key _ p hp with heq | hin
      · subst heq
        exact Or.inr ⟨rfl, h.1, h.2, rfl⟩
      · exact Or.inl hin
  next => exact Or.inl hp

/-- Helper: a placeholder binding present after `create_issue` either was
already present, or was bound by the created epic, whose key is the call's
result. -/
theorem create_issue_placeholders_src (dry : Bool) (resp : Option String)
    (st : TCState) (it en : String) (p : String × String)
    (hp : p ∈ (create_issue dry resp st it en).2.epicPlaceholders) :
    p ∈ st.epicPlaceholders ∨
      ((create_issue dry resp st it en).1 = some p.2 ∧ pyLower it = "epic" ∧
        en ≠ "" ∧ classifyEpicName en = some p.1) := by
  cases dry with
  | true =>
    simp only [create_issue, if_true] at hp ⊢
    rcases recordEpicDry_placeholders_src _ it en _ p hp with h | ⟨hk, h2, h3, h4⟩
    · exact Or.inl h
    · exact Or.inr ⟨by rw [hk], h2, h3, h4⟩
  | false =>
    cases resp with
    | none =>
      simp only [create_issue, Bool.false_eq_true, if_false] at hp ⊢
      exact Or.inl hp
    | some key =>
      simp only [create_issue, Bool.false_eq_true, if_false] at hp ⊢
      rcases recordEpicLive_placeholders_src _ it en _ p hp with h | ⟨hk, h2, h3, h4⟩
      · exact Or.inl h
      · exact Or.inr ⟨by rw [hk], h2, h3, h4⟩

/-- Helper: the Project-phase parent bookkeeping leaves the placeholder
table untouched. -/
theorem stepRow_placeholders_eq (dry : Bool) (resp : Option String) (tp : String)
    (ph : Bool) (st : TCState) (r : Row) :
    (stepRow dry resp tp ph st r).2.2.epicPlaceholders =
      (match create_issue_payload st tp r with
        | none => st
        | some _ =>
          (create_issue dry resp st (pyStrip r.issueType) (pyStrip r.epicName)).2).epicPlaceholders := by
  simp only [stepRow]
  cases hpay : create_issue_payload st tp r with
  | none => cases ph <;> simp
  | some d =>
    cases hres : (create_issue dry resp st (pyStrip r.issueType) (pyStrip r.epicName)).1 with
    | none => cases ph <;> simp [hres]
    | some key =>
      cases ph with
      | false => simp [hres]
      | true =>
        cases hp : (create_issue dry resp st (pyStrip r.issueType) (pyStrip r.epicName)).2.parentProjectKey with
        | none => simp [hres, hp]
        | some pk =>
          by_cases hpk : pk = "" <;> simp [hres, hp, hpk]

/-- Helper: a placeholder binding visible after one step either predates the
step or was bound by it, by an Epic-typed row whose creation succeeded with
that key. -/
theorem stepRow_placeholders_src (dry : Bool) (resp : Option String) (tp : String)
    (ph : Bool) (st : TCState) (r : Row) (p : String × String)
    (hp : p ∈ (stepRow dry resp tp ph st r).2.2.epicPlaceholders) :
    p ∈ st.epicPlaceholders ∨
      ((stepRow dry resp tp ph st r).2.1 = some p.2 ∧ isEpicTypeRow r = true ∧
        classifyEpicName (pyStrip r.epicName) = some p.1) := by
  rw [stepRow_placeholders_eq] at hp
  have hres : (stepRow dry resp tp ph st r).2.1 =
      (match create_issue_payload st tp r with
        | none => (none : Option String)
        | some _ =>
          (create_issue dry resp st (pyStrip r.issueType) (pyStrip r.epicName)).1) := by
    simp only [stepRow]
    cases create_issue_payload st tp r with
    | none => cases ph <;> simp
    | some d => cases ph <;> simp
  cases hpay : create_issue_payload st tp r with
  | none =>
    rw [hpay] at hp
    exact Or.inl hp
  | some d =>
    rw [hpay] at hp hres
    rcases create_issue_placeholders_src dry resp st _ _ p hp with h | ⟨h1, h2, h3, h4⟩
    · exact Or.inl h
    · refine Or.inr ⟨by rw [hres]; exact h1, ?_, h4⟩
      simp only [isEpicTypeRow, beq_iff_eq]
      exact h2

/-- Helper: every placeholder binding a step was processed against either
predates the whole run or was bound by an earlier step of the trace, by an
Epic-typed row whose creation succeeded with that very key. -/
theorem runSteps_placeholder_src (dry : Bool) (o : Nat → Option String) (tp : String) :
    ∀ (steps : List (Bool × Nat × Row)) (st : TCState)
      (pre : List StepLog) (l : StepLog) (post : List StepLog),
      (runSteps dry o tp st steps).trace = pre ++ l :: post →
      ∀ p : String × String, p ∈ l.stateBefore.epicPlaceholders →
        p ∈ st.epicPlaceholders ∨
        ∃ (pre1 post1 : List StepLog) (l' : StepLog),
          pre = pre1 ++ l' :: post1 ∧ isEpicTypeRow l'.row = true ∧
          l'.result = some p.2 ∧
          classifyEpicName (pyStrip l'.row.epicName) = some p.1 := by
  intro steps
  induction steps with
  | nil =>
    intro st pre l post htr p hp
    exact absurd htr (by simp [runSteps])
  | cons hd tl ih =>
    intro st pre l post htr p hp
    obtain ⟨ph, n, r⟩ := hd
    simp only [runSteps] at htr
    cases pre with
    | nil =>
      simp only [List.nil_append, List.cons.injEq] at htr
      have hl : l.stateBefore = st := by rw [← htr.1]
      rw [hl] at hp
      exact Or.inl hp
    | cons e pre' =>
      simp only [List.cons_append, List.cons.injEq] at htr
      rcases ih _ pre' l post htr.2 p hp with hin | ⟨pre1, post1, l', heq, h1, h2, h3⟩
      · rcases stepRow_placeholders_src dry (o st.nCalls) tp ph st r p hin with
          hin0 | ⟨hres, hep, hcl⟩
        · exact Or.inl hin0
        · right
          refine ⟨[], pre', e, by simp, ?_, ?_, ?_⟩
          · rw [← htr.1]
            exact hep
          · rw [← htr.1]
            exact hres
          · rw [← htr.1]
            exact hcl
      · right
        exact ⟨e :: pre1, post1, l', by rw [heq, List.cons_append], h1, h2, h3⟩

/-- C1: phase-ordering invariant of the submission driver.  For every run:
the trace is exactly the phased submission order of the collected rows; the
trace is weakly sorted by phase rank (all Project rows before all Epic
rows before all remaining rows); restricting the submission order to each
phase class recovers that class's rows in their original relative order;
and whenever a step's symbolic `<...>` Epic Link resolves to a key, some
strictly earlier step of the trace is an Epic-typed row whose creation
succeeded with that key and whose epic name classifies to that very
placeholder. -/
theorem submission_phase_ordering :
    ∀ (dry : Bool) (o : Nat → Option String) (tp : String) (rows : List Row),
      ((process_csv dry o tp rows).trace.map StepLog.numRow =
        submissionOrder (collectRows rows)) ∧
      (process_csv dry o tp rows).trace.Pairwise
        (fun a b => phaseRank a ≤ phaseRank b) ∧
      ((process_csv dry o tp rows).trace.map StepLog.numRow).filter
          (fun p => isProjectRow p.2) =
        (collectRows rows).filter (fun p => isProjectRow p.2) ∧
      ((process_csv dry o tp rows).trace.map StepLog.numRow).filter
          (fun p => isEpicTypeRow p.2) =
        (collectRows rows).filter (fun p => isEpicTypeRow p.2) ∧
      ((process_csv dry o tp rows).trace.map StepLog.numRow).filter
          (fun p => !isProjectRow p.2 && !isEpicTypeRow p.2) =
        (collectRows rows).filter (fun p => !isProjectRow p.2 && !isEpicTypeRow p.2) ∧
      (∀ (pre post : List StepLog) (l : StepLog) (k : String),
        (process_csv dry o tp rows).trace = pre ++ l :: post →
        pyStartsWith (pyStrip l.row.epicLink) "<" →
        pyEndsWith (pyStrip l.row.epicLink) ">" →
        resolve_epic_placeholder l.stateBefore (pyStrip l.row.epicLink) = some k →
        ∃ (pre1 post1 : List StepLog) (l' : StepLog),
          pre = pre1 ++ l' :: post1 ∧ isEpicTypeRow l'.row = true ∧
          l'.result = some k ∧
          classifyEpicName (pyStrip l'.row.epicName) =
            some (pyStrip l.row.epicLink)) := by
  intro dry o tp rows
  have htr : (process_csv dry o tp rows).trace.map StepLog.numRow =
      submissionOrder (collectRows rows) := by
    rw [process_csv, runSteps_trace_numRow]
    rfl
  refine ⟨htr, ?_, ?_, ?_, ?_, ?_⟩
  · have hrows : (process_csv dry o tp rows).trace.map (fun l => l.row) =
        (phasedRows (collectRows rows)).map (fun t => t.2.2) :=
      runSteps_trace_rows dry o tp _ _
    have hpw := phasedRows_rows_pairwise (collectRows rows)
    rw [← hrows] at hpw
    rw [List.pairwise_map] at hpw
    exact hpw.imp (fun h => h)
  · rw [htr]
    exact submissionOrder_filter_proj _
  · rw [htr]
    exact submissionOrder_filter_epic _
  · rw [htr]
    exact submissionOrder_filter_other _
  · intro pre post l k hsplit h1 h2 hres
    have hlk : lookupAssoc (pyStrip l.row.epicLink) l.stateBefore.epicPlaceholders =
        some k := by
      rw [resolve_epic_placeholder, if_pos ⟨h1, h2⟩] at hres
      cases hl : lookupAssoc (pyStrip l.row.epicLink) l.stateBefore.epicPlaceholders with
      | none => rw [hl] at hres; cases hres
      | some rk =>
        rw [hl] at hres
        have hres2 : (if rk = "" then (none : Option String) else some rk) = some k := hres
        by_cases hrk : rk = ""
        · rw [if_pos hrk] at hres2; cases hres2
        · rw [if_neg hrk] at hres2
          cases hres2
          rfl
    have hmem := lookupAssoc_mem _ _ _ hlk
    rcases runSteps_placeholder_src dry o tp _ initialState pre l post hsplit
        (pyStrip l.row.epicLink, k) hmem with h0 | ⟨pre1, post1, l', heq, ha, hb, hc⟩
    · exact absurd h0 (by simp [initialState])
    · exact ⟨pre1, post1, l', heq, ha, hb, hc⟩

/-- Witness for C1: in a dry run on an `M00 Resource Allocation` Epic row
followed by a Story row referencing `<resource_alocation_epic>`, the
reference resolves at the second step, and the theorem locates the epic
among the strictly earlier steps: an Epic-typed row created as `DRY-0001`
and classified to that placeholder. -/
theorem submission_phase_ordering_witness :
    ∃ (pre1 post1 : List StepLog) (l' : StepLog),
      (process_csv true (fun _ => none) "G"
          [{ blankRow with issueType := "Epic", summary := "M00 Resource Allocation",
                           epicName := "M00 Resource Allocation" },
           { blankRow with issueType := "Story", summary := "S",
                           epicLink := "<resource_alocation_epic>" }]).trace.take 1 =
        pre1 ++ l' :: post1 ∧
      isEpicTypeRow l'.row = true ∧ l'.result = some "DRY-0001" ∧
      classifyEpicName (pyStrip l'.row.epicName) =
        some (pyStrip (((process_csv true (fun _ => none) "G"
          [{ blankRow with issueType := "Epic", summary := "M00 Resource Allocation",
                           epicName := "M00 Resource Allocation" },
           { blankRow with issueType := "Story", summary := "S",
                           epicLink := "<resource_alocation_epic>" }]).trace.drop 1).headD
            ⟨0, false, blankRow, initialState, none, none⟩).row.epicLink) :=
  (submission_phase_ordering true (fun _ => none) "G"
      [{ blankRow with issueType := "Epic", summary := "M00 Resource Allocation",
                       epicName := "M00 Resource Allocation" },
       { blankRow with issueType := "Story", summary := "S",
                       epicLink := "<resource_alocation_epic>" }]).2.2.2.2.2
    ((process_csv true (fun _ => none) "G"
        [{ blankRow with issueType := "Epic", summary := "M00 Resource Allocation",
                         epicName := "M00 Resource Allocation" },
         { blankRow with issueType := "Story", summary := "S",
                         epicLink := "<resource_alocation_epic>" }]).trace.take 1)
    []
    (((process_csv true (fun _ => none) "G"
        [{ blankRow with issueType := "Epic", summary := "M00 Resource Allocation",
                         epicName := "M00 Resource Allocation" },
         { blankRow with issueType := "Story", summary := "S",
                         epicLink := "<resource_alocation_epic>" }]).trace.drop 1).headD
      ⟨0, false, blankRow, initialState, none, none⟩)
    "DRY-0001" (by decide) (by decide) (by decide) (by decide)

/-! ## C4: dry-run / live equivalence -/

/-- Helper: dict assignment only depends on, and only changes, the key
sequence; assigning the same key to maps with equal key sequences keeps
them equal. -/
theorem insertAssoc_map_fst_congr {α β : Type} (key : String) (v : α) (w : β) :
    ∀ (l1 : List (String × α)) (l2 : List (String × β)),
      l1.map Prod.fst = l2.map Prod.fst →
      (insertAssoc key v l1).map Prod.fst = (insertAssoc key w l2).map Prod.fst := by
  intro l1
  induction l1 with
  | nil =>
    intro l2 h
    cases l2 with
    | nil => rfl
    | cons q r2 => exact absurd h (by simp)
  | cons q r1 ih =>
    intro l2 h
    cases l2 with
    | nil => exact absurd h (by simp)
    | cons q2 r2 =>
      obtain ⟨qk, qv⟩ := q
      obtain ⟨q2k, q2v⟩ := q2
      simp only [List.map_cons, List.cons.injEq] at h
      rw [insertAssoc, insertAssoc]
      by_cases he : qk = key
      · rw [if_pos he, if_pos (h.1.symm.trans he)]
        simp [h.2]
      · rw [if_neg he, if_neg (fun hc => he (h.1.trans hc))]
        simp only [List.map_cons]
        rw [h.1, ih r2 h.2]

/-- Helper: the dry epic bookkeeping does not touch the call counter. -/
theorem recordEpicDry_nCalls (key it en : String) (st : TCState) :
    (recordEpicDry key it en st).nCalls = st.nCalls := by
  simp only [recordEpicDry]
  split
  · split <;> rfl
  · rfl

/-- Helper: the live epic bookkeeping does not touch the call counter. -/
theorem recordEpicLive_nCalls (key it en : String) (st : TCState) :
    (recordEpicLive key it en st).nCalls = st.nCalls := by
  simp only [recordEpicLive]
  split
  · split <;> rfl
  · rfl

/-- Helper: the dry and live epic bookkeeping enter the same epic names and
the same placeholder tokens, in the same order, whatever the keys. -/
theorem recordEpic_sim (k1 k2 it en : String) (st1 st2 : TCState)
    (hci : st1.createdIssues.map Prod.fst = st2.createdIssues.map Prod.fst)
    (hep : st1.epicPlaceholders.map Prod.fst = st2.epicPlaceholders.map Prod.fst) :
    (recordEpicDry k1 it en st1).createdIssues.map Prod.fst =
      (recordEpicLive k2 it en st2).createdIssues.map Prod.fst ∧
    (recordEpicDry k1 it en st1).epicPlaceholders.map Prod.fst =
      (recordEpicLive k2 it en st2).epicPlaceholders.map Prod.fst := by
  rw [recordEpicDry, recordEpicLive]
  by_cases hcond : pyLower it = "epic" ∧ en ≠ ""
  · rw [if_pos hcond, if_pos hcond]
    cases hcl : classifyEpicName en with
    | none =>
      exact ⟨insertAssoc_map_fst_congr en k1 k2 _ _ hci, hep⟩
    | some tok =>
      exact ⟨insertAssoc_map_fst_congr en k1 k2 _ _ hci,
             insertAssoc_map_fst_congr tok k1 k2 _ _ hep⟩
  · rw [if_neg hcond, if_neg hcond]
    exact ⟨hci, hep⟩

/-- Helper: one dry step and one all-success live step, from corresponding
states, yield corresponding states and results of equal success. -/
theorem stepRow_sim (k : Nat → String) (hk : ∀ n, k n ≠ "") (tp : String)
    (ph : Bool) (r : Row) (st1 st2 : TCState) (h : SimRel k st1 st2) :
    SimRel k (stepRow true none tp ph st1 r).2.2
      (stepRow false (some (k st2.nCalls)) tp ph st2 r).2.2 ∧
    (stepRow true none tp ph st1 r).2.1.isSome =
      (stepRow false (some (k st2.nCalls)) tp ph st2 r).2.1.isSome := by
  obtain ⟨hn, hci, hep, hpar⟩ := h
  by_cases hskip : pyStrip r.summary = "" ∨ pyStrip r.issueType = ""
  · have hpay1 : create_issue_payload st1 tp r = none :=
      (create_issue_payload_skip st1 tp r).mpr hskip
    have hpay2 : create_issue_payload st2 tp r = none :=
      (create_issue_payload_skip st2 tp r).mpr hskip
    have e1 : (stepRow true none tp ph st1 r).2.2 = st1 := by
      simp [stepRow, hpay1]
    have e2 : (stepRow false (some (k st2.nCalls)) tp ph st2 r).2.2 = st2 := by
      simp [stepRow, hpay2]
    have f1 : (stepRow true none tp ph st1 r).2.1 = none := by
      simp [stepRow, hpay1]
    have f2 : (stepRow false (some (k st2.nCalls)) tp ph st2 r).2.1 = none := by
      simp [stepRow, hpay2]
    rw [e1, e2, f1, f2]
    exact ⟨⟨hn, hci, hep, hpar⟩, rfl⟩
  · obtain ⟨d1, hpay1⟩ : ∃ d, create_issue_payload st1 tp r = some d := by
      cases hp : create_issue_payload st1 tp r with
      | none => exact absurd ((create_issue_payload_skip st1 tp r).mp hp) hskip
      | some d => exact ⟨d, rfl⟩
    obtain ⟨d2, hpay2⟩ : ∃ d, create_issue_payload st2 tp r = some d := by
      cases hp : create_issue_payload st2 tp r with
      | none => exact absurd ((create_issue_payload_skip st2 tp r).mp hp) hskip
      | some d => exact ⟨d, rfl⟩
    have f1 : (stepRow true none tp ph st1 r).2.1 =
        some (dryKeyStr (st1.nCalls + 1)) := by
      simp [stepRow, hpay1, create_issue]
    have f2 : (stepRow false (some (k st2.nCalls)) tp ph st2 r).2.1 =
        some (k st2.nCalls) := by
      simp [stepRow, hpay2, create_issue]
    have hrec := recordEpic_sim (dryKeyStr (st1.nCalls + 1)) (k st2.nCalls)
      (pyStrip r.issueType) (pyStrip r.epicName)
      { st1 with nCalls := st1.nCalls + 1 } { st2 with nCalls := st2.nCalls + 1 }
      hci hep
    refine ⟨?_, by simp [f1, f2]⟩
    rcases hpar with ⟨hp1, hp2⟩ | ⟨c, hp1, hp2⟩
    · -- both parents unset: a Project-phase success sets them from this call
      cases ph with
      | false =>
        have e1 : (stepRow true none tp false st1 r).2.2 =
            recordEpicDry (dryKeyStr (st1.nCalls + 1)) (pyStrip r.issueType)
              (pyStrip r.epicName) { st1 with nCalls := st1.nCalls + 1 } := by
          simp [stepRow, hpay1, create_issue]
        have e2 : (stepRow false (some (k st2.nCalls)) tp false st2 r).2.2 =
            recordEpicLive (k st2.nCalls) (pyStrip r.issueType)
              (pyStrip r.epicName) { st2 with nCalls := st2.nCalls + 1 } := by
          simp [stepRow, hpay2, create_issue]
        rw [e1, e2]
        refine ⟨?_, hrec.1, hrec.2, ?_⟩
        · simp [recordEpicDry_nCalls, recordEpicLive_nCalls, hn]
        · exact Or.inl ⟨by simp [recordEpicDry_parentKey, hp1],
            by simp [recordEpicLive_parentKey, hp2]⟩
      | true =>
        have e1 : (stepRow true none tp true st1 r).2.2 =
            { recordEpicDry (dryKeyStr (st1.nCalls + 1)) (pyStrip r.issueType)
                (pyStrip r.epicName) { st1 with nCalls := st1.nCalls + 1 } with
              parentProjectKey := some (dryKeyStr (st1.nCalls + 1)) } := by
          simp [stepRow, hpay1, create_issue, recordEpicDry_parentKey, hp1]
        have e2 : (stepRow false (some (k st2.nCalls)) tp true st2 r).2.2 =
            { recordEpicLive (k st2.nCalls) (pyStrip r.issueType)
                (pyStrip r.epicName) { st2 with nCalls := st2.nCalls + 1 } with
              parentProjectKey := some (k st2.nCalls) } := by
          simp [stepRow, hpay2, create_issue, recordEpicLive_parentKey, hp2]
        rw [e1, e2]
        refine ⟨?_, by simpa using hrec.1, by simpa using hrec.2, ?_⟩
        · simp [recordEpicDry_nCalls, recordEpicLive_nCalls, hn]
        · exact Or.inr ⟨st2.nCalls, by simp [hn], by simp⟩
    · -- parents already set from call c: never overwritten
      have hd : dryKeyStr (c + 1) ≠ "" := dryKeyStr_ne_empty (c + 1)
      have hl : k c ≠ "" := hk c
      cases ph with
      | false =>
        have e1 : (stepRow true none tp false st1 r).2.2 =
            recordEpicDry (dryKeyStr (st1.nCalls + 1)) (pyStrip r.issueType)
              (pyStrip r.epicName) { st1 with nCalls := st1.nCalls + 1 } := by
          simp [stepRow, hpay1, create_issue]
        have e2 : (stepRow false (some (k st2.nCalls)) tp false st2 r).2.2 =
            recordEpicLive (k st2.nCalls) (pyStrip r.issueType)
              (pyStrip r.epicName) { st2 with nCalls := st2.nCalls + 1 } := by
          simp [stepRow, hpay2, create_issue]
        rw [e1, e2]
        refine ⟨?_, hrec.1, hrec.2, ?_⟩
        · simp [recordEpicDry_nCalls, recordEpicLive_nCalls, hn]
        · exact Or.inr ⟨c, by simp [recordEpicDry_parentKey, hp1],
            by simp [recordEpicLive_parentKey, hp2]⟩
      | true =>
        have e1 : (stepRow true none tp true st1 r).2.2 =
            recordEpicDry (dryKeyStr (st1.nCalls + 1)) (pyStrip r.issueType)
              (pyStrip r.epicName) { st1 with nCalls := st1.nCalls + 1 } := by
          simp [stepRow, hpay1, create_issue, recordEpicDry_parentKey, hp1, hd]
        have e2 : (stepRow false (some (k st2.nCalls)) tp true st2 r).2.2 =
            recordEpicLive (k st2.nCalls) (pyStrip r.issueType)
              (pyStrip r.epicName) { st2 with nCalls := st2.nCalls + 1 } := by
          simp [stepRow, hpay2, create_issue, recordEpicLive_parentKey, hp2, hl]
        rw [e1, e2]
        refine ⟨?_, hrec.1, hrec.2, ?_⟩
        · simp [recordEpicDry_nCalls, recordEpicLive_nCalls, hn]
        · exact Or.inr ⟨c, by simp [recordEpicDry_parentKey, hp1],
            by simp [recordEpicLive_parentKey, hp2]⟩

/-- Helper: a dry run and an all-successes live run from corresponding
states stay in correspondence and produce equal counts. -/
theorem runSteps_sim (k : Nat → String) (hk : ∀ n, k n ≠ "") (tp : String) :
    ∀ (steps : List (Bool × Nat × Row)) (st1 st2 : TCState), SimRel k st1 st2 →
      SimRel k (runSteps true (fun _ => none) tp st1 steps).state
        (runSteps false (fun n => some (k n)) tp st2 steps).state ∧
      (runSteps true (fun _ => none) tp st1 steps).created =
        (runSteps false (fun n => some (k n)) tp st2 steps).created ∧
      (runSteps true (fun _ => none) tp st1 steps).failed =
        (runSteps false (fun n => some (k n)) tp st2 steps).failed := by
  intro steps
  induction steps with
  | nil => intro st1 st2 h; exact ⟨h, rfl, rfl⟩
  | cons hd tl ih =>
    intro st1 st2 h
    obtain ⟨ph, n, r⟩ := hd
    have hstep := stepRow_sim k hk tp ph r st1 st2 h
    have hrest := ih _ _ hstep.1
    simp only [runSteps]
    refine ⟨hrest.1, ?_, ?_⟩
    · cases hs1 : (stepRow true none tp ph st1 r).2.1.isSome with
      | true =>
        have hs2 := hstep.2.symm.trans hs1
        simp [hs1, hs2, hrest.2.1]
      | false =>
        have hs2 := hstep.2.symm.trans hs1
        simp [hs1, hs2, hrest.2.1]
    · cases hs1 : (stepRow true none tp ph st1 r).2.1.isSome with
      | true =>
        have hs2 := hstep.2.symm.trans hs1
        simp [hs1, hs2, hrest.2.2]
      | false =>
        have hs2 := hstep.2.symm.trans hs1
        simp [hs1, hs2, hrest.2.2]

/-- C4: a dry run and a live run in which every tracker call succeeds (with
non-empty keys) populate the resolution state identically up to the
fake-key/real-key correspondence: equal created and failed counts, the same
epic names entered into `created_issues` in the same order, the same
symbolic placeholders bound in the same order (by the shared
keyword-priority classification), the same number of creation calls, and
`parent_project_key` either unset in both or supplied by the same creation
call in both. -/
theorem dry_live_equivalence :
    ∀ (tp : String) (rows : List Row) (k : Nat → String), (∀ n, k n ≠ "") →
      (process_csv true (fun _ => none) tp rows).created =
        (process_csv false (fun n => some (k n)) tp rows).created ∧
      (process_csv true (fun _ => none) tp rows).failed =
        (process_csv false (fun n => some (k n)) tp rows).failed ∧
      (process_csv true (fun _ => none) tp rows).state.createdIssues.map Prod.fst =
        (process_csv false (fun n => some (k n)) tp rows).state.createdIssues.map Prod.fst ∧
      (process_csv true (fun _ => none) tp rows).state.epicPlaceholders.map Prod.fst =
        (process_csv false (fun n => some (k n)) tp rows).state.epicPlaceholders.map Prod.fst ∧
      (process_csv true (fun _ => none) tp rows).state.nCalls =
        (process_csv false (fun n => some (k n)) tp rows).state.nCalls ∧
      (((process_csv true (fun _ => none) tp rows).state.parentProjectKey = none ∧
        (process_csv false (fun n => some (k n)) tp rows).state.parentProjectKey = none) ∨
       (∃ c, (process_csv true (fun _ => none) tp rows).state.parentProjectKey =
              some (dryKeyStr (c + 1)) ∧
             (process_csv false (fun n => some (k n)) tp rows).state.parentProjectKey =
              some (k c))) := by
  intro tp rows k hk
  have h := runSteps_sim k hk tp (phasedRows (collectRows rows)) initialState
    initialState ⟨rfl, rfl, rfl, Or.inl ⟨rfl, rfl⟩⟩
  exact ⟨h.2.1, h.2.2, h.1.2.1, h.1.2.2.1, h.1.1, h.1.2.2.2⟩

/-- Witness for C4: on a Project row, an `M00` Epic row and a Story row,
the dry run and an all-successes live run with keys `LIVE-n` agree on
counts, epic names, bound placeholders and the parent-supplying call. -/
theorem dry_live_equivalence_witness :
    (process_csv true (fun _ => none) "G"
        [{ blankRow with issueType := "Project", summary := "P" },
         { blankRow with issueType := "Epic", summary := "M00 RA",
                         epicName := "M00 RA" },
         { blankRow with issueType := "Story", summary := "S",
                         epicLink := "<resource_alocation_epic>" }]).created =
      (process_csv false (fun n => some ("LIVE-" ++ toString n)) "G"
        [{ blankRow with issueType := "Project", summary := "P" },
         { blankRow with issueType := "Epic", summary := "M00 RA",
                         epicName := "M00 RA" },
         { blankRow with issueType := "Story", summary := "S",
                         epicLink := "<resource_alocation_epic>" }]).created ∧
    (process_csv true (fun _ => none) "G"
        [{ blankRow with issueType := "Project", summary := "P" },
         { blankRow with issueType := "Epic", summary := "M00 RA",
                         epicName := "M00 RA" },
         { blankRow with issueType := "Story", summary := "S",
                         epicLink := "<resource_alocation_epic>" }]).state.epicPlaceholders.map
        Prod.fst =
      (process_csv false (fun n => some ("LIVE-" ++ toString n)) "G"
        [{ blankRow with issueType := "Project", summary := "P" },
         { blankRow with issueType := "Epic", summary := "M00 RA",
                         epicName := "M00 RA" },
         { blankRow with issueType := "Story", summary := "S",
                         epicLink := "<resource_alocation_epic>" }]).state.epicPlaceholders.map
        Prod.fst :=
  ⟨(dry_live_equivalence "G"
      [{ blankRow with issueType := "Project", summary := "P" },
       { blankRow with issueType := "Epic", summary := "M00 RA",
                       epicName := "M00 RA" },
       { blankRow with issueType := "Story", summary := "S",
                       epicLink := "<resource_alocation_epic>" }]
      (fun n => "LIVE-" ++ toString n)
      (fun n h => by
        have h2 : ("LIVE-" ++ toString n).data = ([] : List Char) := by
          simp only at h
          rw [h]
        rw [String.data_append, List.append_eq_nil] at h2
        exact absurd h2.1 (by decide))).1,
   (dry_live_equivalence "G"
      [{ blankRow with issueType := "Project", summary := "P" },
       { blankRow with issueType := "Epic", summary := "M00 RA",
                       epicName := "M00 RA" },
       { blankRow with issueType := "Story", summary := "S",
                       epicLink := "<resource_alocation_epic>" }]
      (fun n => "LIVE-" ++ toString n)
      (fun n h => by
        have h2 : ("LIVE-" ++ toString n).data = ([] : List Char) := by
          simp only at h
          rw [h]
        rw [String.data_append, List.append_eq_nil] at h2
        exact absurd h2.1 (by decide))).2.2.2.1⟩

end Metisara
